import Mathlib

/-!
# Verification of the bank_pipeline record-validation and risk engine

Shallow embedding of the data-quality gate (`src/data_quality.py`,
`DataQualityChecker.check_all_quality` / `get_clean_data`) and the risk
monitor (`src/monitoring_audit.py`, `RiskMonitor.check_all_risks`).

Records are JSON-like dictionaries.  We model a Python value as `Value`
(null / string / integer / boolean; floats are abstracted as integers) and
a record as an ordered association list of field names to values.  A Python
operation that would raise `TypeError` / `KeyError` (e.g. comparing `None`
with a number, or a dict-comprehension over a missing key) is modelled by
`Option`: `none` is a crashed run.

Deviations from CPython that no property below depends on, kept for
tractability and documented here once:
* dict equality is modelled as ordered association-list equality;
* Python's numeric cross-type equalities (`1 == True`, `1 == 1.0`) are not
  identified in `Value`;
* `float(str)` conversion is modelled by integer parsing of the string;
* in the risk monitor, the `ViolationID` counter (always 1 + position in
  the emitted list), the wall-clock `Timestamp`, the human-readable
  `Description` text and the `CustomerName` / `Amount` / `AuthMethod` /
  `Balance` kwargs of a violation are omitted: no claim mentions them.
-/

set_option maxHeartbeats 1000000

namespace BankPipeline

/-- A JSON-like Python value as it appears in the pipeline's records. -/
inductive Value where
  | null : Value
  | str : String → Value
  | int : Int → Value
  | bool : Bool → Value
deriving DecidableEq, Repr

/-- Python truthiness of a value (`if value:`). -/
def Value.truthy : Value → Bool
  | .null => false
  | .str s => !(s == "")
  | .int n => !(n == 0)
  | .bool b => b

/-- A value usable on one side of a numeric order comparison (`v < n`).
`None` and strings raise `TypeError` in Python, hence `none`. -/
def Value.cmpNum : Value → Option Int
  | .int n => some n
  | .bool b => some (if b then 1 else 0)
  | _ => none

/-- `float(v)`: numbers and numeric strings convert, `None` and other
strings raise. -/
def Value.toNum : Value → Option Int
  | .int n => some n
  | .bool b => some (if b then 1 else 0)
  | .str s => s.toInt?
  | .null => none

/-- `str(v)` as used when a value is interpolated into an issue message. -/
def Value.pyStr : Value → String
  | .null => "None"
  | .str s => s
  | .int n => toString n
  | .bool b => if b then "True" else "False"

/-- A record: an insertion-ordered dictionary from field names to values. -/
structure Rec where
  fs : List (String × Value)
deriving DecidableEq, Repr

/-- `field in record` / `record[field]` combined: the stored value, if the
key is present. -/
def Rec.get? (r : Rec) (k : String) : Option Value :=
  (r.fs.find? (fun p => p.1 == k)).map (·.2)

/-- `record.get(field)`: missing keys give Python `None`. -/
def Rec.pyGet (r : Rec) (k : String) : Value :=
  (r.get? k).getD .null

/-- `record.get(field, default)`. -/
def Rec.pyGetD (r : Rec) (k : String) (d : Value) : Value :=
  (r.get? k).getD d

/-- The batch: a dictionary from entity-type name to its record list
(`self.data` in both checker classes). -/
abbrev Data := List (String × List Rec)

/-- First-match lookup in an insertion-ordered dictionary. -/
def alGet? {κ α : Type} [DecidableEq κ] (m : List (κ × α)) (k : κ) : Option α :=
  (m.find? (fun p => p.1 == k)).map (·.2)

/-- `d[k] = v` on a dictionary: in-place update if the key exists,
append otherwise. -/
def alSet {κ α : Type} [DecidableEq κ] (m : List (κ × α)) (k : κ) (v : α) :
    List (κ × α) :=
  if (m.find? (fun p => p.1 == k)).isSome then
    m.map (fun p => (p.1, if p.1 == k then v else p.2))
  else m ++ [(k, v)]

/-- `d[k] += a` on a `defaultdict` of numbers: in-place addition,
new keys appended (with the default 0 start). -/
def alAdd {κ : Type} [DecidableEq κ] (m : List (κ × Int)) (k : κ) (a : Int) :
    List (κ × Int) :=
  if (m.find? (fun p => p.1 == k)).isSome then
    m.map (fun p => (p.1, if p.1 == k then p.2 + a else p.2))
  else m ++ [(k, a)]

/-! ## `DataQualityChecker.check_all_quality` (src/data_quality.py) -/

/-- `field not in item or item[field] is None or item[field] == ''`:
the NULL-value test of the quality checker. -/
def isNullField (r : Rec) (f : String) : Bool :=
  match r.get? f with
  | none => true
  | some v => v == .null || v == .str ""

/-- The issues appended by the NULL-value loop for one record:
one `"NULL value in <type>.<field>"` message per failing critical field,
in field order. -/
def nullIssues (t : String) (fields : List String) (r : Rec) : List String :=
  (fields.filter (fun f => isNullField r f)).map
    (fun f => "NULL value in " ++ t ++ "." ++ f)

/-- `item.get('Balance', 0) < 0` for an account record; `none` is the
`TypeError` raised when the stored balance is `None` or a string. -/
def accountIssues (r : Rec) : Option (List String) := do
  let b ← (r.pyGetD "Balance" (.int 0)).cmpNum
  return if b < 0 then
    ["Negative balance in account " ++ (r.pyGet "AccountID").pyStr]
  else []

/-- `item.get('Amount', 0) <= 0` for a transaction record. -/
def txnIssues (r : Rec) : Option (List String) := do
  let a ← (r.pyGetD "Amount" (.int 0)).cmpNum
  return if a ≤ 0 then
    ["Invalid amount in transaction " ++ (r.pyGet "TransactionID").pyStr]
  else []

/-- All issues one record contributes in the NULL-value / business-rule
pass; the record is marked failed (`has_issue`) exactly when this list is
nonempty. -/
def recordCheck (t : String) (fields : List String) (r : Rec) :
    Option (List String) :=
  (if t == "accounts" then accountIssues r else some []).bind (fun bis =>
    (if t == "transactions" then txnIssues r else some []).bind (fun tis =>
      some (nullIssues t fields r ++ bis ++ tis)))

/-- The inner record loop of the NULL-value pass for one entity type:
accumulates the issue list and the type's failed-record list. -/
def checkTypeGo (t : String) (fields : List String) :
    List Rec → List String → List Rec → Option (List String × List Rec)
  | [], is, fl => some (is, fl)
  | r :: rs, is, fl =>
    match recordCheck t fields r with
    | none => none
    | some ris =>
      checkTypeGo t fields rs (is ++ ris) (if ris.isEmpty then fl else fl ++ [r])

/-- One iteration of the outer `for data_type, fields in critical_fields`
loop: skipped when the type is absent from the batch, otherwise
`failed_records[data_type]` is created (possibly empty) and filled. -/
def typePass (t : String) (fields : List String) (data : Data)
    (acc : List String × List (String × List Rec)) :
    Option (List String × List (String × List Rec)) :=
  match alGet? data t with
  | none => some acc
  | some rs => do
    let (is, fl) ← checkTypeGo t fields rs [] []
    return (acc.1 ++ is, acc.2 ++ [(t, fl)])

/-- The NULL-value / business-rule pass over the three checked entity
types, in the insertion order of `critical_fields`. -/
def phase1 (data : Data) : Option (List String × List (String × List Rec)) := do
  let a1 ← typePass "customers" ["NationalID", "Name", "Username"] data ([], [])
  let a2 ← typePass "accounts" ["CustomerID", "Balance"] data a1
  typePass "transactions" ["Amount", "FromAccountID", "ToAccountID"] data a2

/-- One element of the duplicate-scan work list: a field name together
with the (present, truthy) value a customer record holds there, and the
record itself.  The source iterates customers and, inside, the two fields;
`dupEntries` flattens one record's contribution in that inner order. -/
def dupEntries (c : Rec) : List (String × Value × Rec) :=
  ["NationalID", "Username"].filterMap (fun f =>
    match c.get? f with
    | none => none
    | some v => if v.truthy then some (f, v, c) else none)

/-- State of the duplicate scan: `seen_values` (the source stores the
first index and immediately dereferences `self.data['customers'][idx]`;
the record list never changes, so we store that record directly), the
issue list, and `failed_records['customers']`. -/
structure DupState where
  seen : List (Value × Rec)
  issues : List String
  failed : List Rec
deriving DecidableEq, Repr

/-- `if record not in failed: failed.append(record)`. -/
def markFailed (l : List Rec) (x : Rec) : List Rec :=
  if l.contains x then l else l ++ [x]

/-- One `(field, value)` step of the duplicate scan: a repeated value
records an issue and marks both the first holder and the current record
as failed (each only if not already failed); a fresh value is registered. -/
def dupStep (st : DupState) (e : String × Value × Rec) : DupState :=
  match st.seen.find? (fun p => p.1 == e.2.1) with
  | some p =>
    { st with
      issues := st.issues ++ ["Duplicate " ++ e.1 ++ ": " ++ e.2.1.pyStr],
      failed := markFailed (markFailed st.failed p.2) e.2.2 }
  | none => { st with seen := st.seen ++ [(e.2.1, e.2.2)] }

/-- The customer duplicate scan, flattened over the per-record entries. -/
def dupScan (cs : List Rec) (issues0 : List String) (failed0 : List Rec) :
    DupState :=
  (cs.flatMap dupEntries).foldl dupStep ⟨[], issues0, failed0⟩

/-- Result of `check_all_quality`: the accumulated issue strings and the
`failed_records` dictionary. -/
structure QState where
  issues : List String
  failed : List (String × List Rec)
deriving DecidableEq, Repr

/-- `DataQualityChecker.check_all_quality`.  `none` models a `TypeError`
raised by the balance / amount comparisons on non-numeric present values;
otherwise the final issue list and failed-record dictionary are returned
(the method's boolean result is `issues.isEmpty` and is not used by any
property below). -/
def checkAllQuality (data : Data) : Option QState :=
  if data.isEmpty then some ⟨[], []⟩
  else do
    let (is1, fl1) ← phase1 data
    match alGet? data "customers" with
    | none => pure ⟨is1, fl1⟩
    | some cs =>
      let cf := (alGet? fl1 "customers").getD []
      let st := dupScan cs is1 cf
      pure ⟨st.issues, alSet fl1 "customers" st.failed⟩

/-- `DataQualityChecker.get_clean_data`: for every entity type of the
batch, keep the records that are not (by value) in that type's
failed-record list. -/
def getCleanData (data : Data) (failed : List (String × List Rec)) : Data :=
  data.map (fun p =>
    (p.1, p.2.filter (fun r => !((alGet? failed p.1).getD []).contains r)))

/-! ## `RiskMonitor.check_all_risks` (src/monitoring_audit.py) -/

/-- The five input collections, read with `self.data.get(name, [])`. -/
structure RiskData where
  transactions : List Rec
  customers : List Rec
  devices : List Rec
  accounts : List Rec
  authLogs : List Rec
deriving DecidableEq, Repr

/-- `{r[key]: r for r in rs}`: later records overwrite earlier ones;
a record without the key raises `KeyError` (`none`). -/
def buildMap (key : String) (rs : List Rec) : Option (List (Value × Rec)) :=
  rs.foldlM (fun m r => do
    let v ← r.get? key
    return alSet m v r) []

/-- The `auth_map` build: only logs with a truthy `CustomerID` and
`AuthStatus == 'SUCCESS'` are stored, keyed by customer, later entries
overwriting earlier ones. -/
def buildAuthMap (logs : List Rec) : List (Value × Rec) :=
  logs.foldl (fun m a =>
    let k := a.pyGet "CustomerID"
    if k.truthy && (a.pyGet "AuthStatus" == .str "SUCCESS") then
      alSet m k a
    else m) []

/-- An emitted risk violation.  (`ViolationID` is 1 + the position in the
final list, `Timestamp` is wall-clock time, and `Description` plus the
remaining kwargs are informational; none of them is referenced by any
property, so they are omitted — see the file header.) -/
structure Violation where
  rule : String
  level : String
  txn : Option Value
  cust : Option Value
  device : Option Value
  date : Option String
deriving DecidableEq, Repr

/-- `account_map.get(txn.get('FromAccountID'), {})`. -/
def fromAccountOf (accountMap : List (Value × Rec)) (txn : Rec) : Rec :=
  (alGet? accountMap (txn.pyGet "FromAccountID")).getD ⟨[]⟩

/-- The devices of a customer that are not verified, in batch order:
`[d for d in customer_devices if not d.get('IsVerified', False)]` where
`customer_devices = [d for d in devices if d.get('CustomerID') == cid]`. -/
def unverifiedDevices (devices : List Rec) (cid : Value) : List Rec :=
  (devices.filter (fun d => d.pyGet "CustomerID" == cid)).filter
    (fun d => !(d.pyGetD "IsVerified" (.bool false)).truthy)

/-- Context of the per-transaction loop. -/
structure RCtx where
  devices : List Rec
  accountMap : List (Value × Rec)
  authMap : List (Value × Rec)
deriving Repr

/-- The transaction's originating customer:
`account_map.get(txn.get('FromAccountID'), {}).get('CustomerID')`. -/
def txnCustomerOf (am : List (Value × Rec)) (txn : Rec) : Value :=
  (fromAccountOf am txn).pyGet "CustomerID"

/-- `auth_map.get(customer_id, {}).get('AuthMethod', '')`. -/
def authMethodOf (authMap : List (Value × Rec)) (cid : Value) : Value :=
  ((alGet? authMap cid).getD ⟨[]⟩).pyGetD "AuthMethod" (.str "")

/-- `auth_method in ['Biometric', 'OTP']`. -/
def strongAuth (v : Value) : Bool :=
  v == .str "Biometric" || v == .str "OTP"

/-- Rule 1: a high-value transaction (> 10M VND) whose originating
customer's stored authentication method is not strong. -/
def r1Violation (ctx : RCtx) (txn : Rec) (amount : Int) : List Violation :=
  if 10000000 < amount &&
      !strongAuth (authMethodOf ctx.authMap (txnCustomerOf ctx.accountMap txn)) then
    [⟨"RULE_001", "HIGH", some (txn.pyGet "TransactionID"),
      some (txnCustomerOf ctx.accountMap txn), none, none⟩]
  else []

/-- Rule 2: the originating customer (when resolved) owns at least one
unverified device in the batch and the amount exceeds 1M VND.  The
logged `DeviceID` is the first unverified device's — the transaction's
own `DeviceID` is never consulted. -/
def r2Violation (ctx : RCtx) (txn : Rec) (amount : Int) : List Violation :=
  let cid := txnCustomerOf ctx.accountMap txn
  if cid.truthy then
    if !(unverifiedDevices ctx.devices cid).isEmpty && 1000000 < amount then
      [⟨"RULE_002", "MEDIUM", some (txn.pyGet "TransactionID"), some cid,
        some (((unverifiedDevices ctx.devices cid).headD ⟨[]⟩).pyGet "DeviceID"),
        none⟩]
    else []
  else []

/-- Rule 3: `from_account.get('Balance', 0) < amount` (an unresolved
account defaults to balance 0). -/
def r3Violation (ctx : RCtx) (txn : Rec) (bal amount : Int) : List Violation :=
  if bal < amount then
    [⟨"RULE_003", "HIGH", some (txn.pyGet "TransactionID"),
      some (txnCustomerOf ctx.accountMap txn), none, none⟩]
  else []

/-- The transaction's daily-total contribution: `(customer, YYYY-MM-DD)`
with the amount, when the customer is resolved and a truthy timestamp is
present; slicing a truthy non-string timestamp raises (`none`). -/
def contribOf (txn : Rec) (cid : Value) (amount : Int) :
    Option (Option ((Value × String) × Int)) :=
  if cid.truthy && (txn.pyGet "Timestamp").truthy then
    match txn.pyGet "Timestamp" with
    | .str s => some (some ((cid, s.take 10), amount))
    | _ => none
  else some none

/-- Effect of one transaction in the loop body: the violations it emits
(Rules 1–3, in that order) and its contribution to `daily_totals`
(`none` when the customer is unresolved or the timestamp is missing).
An overall `none` models a `TypeError`: `float()` of a bad amount, a
numeric comparison against a `None`/string balance, or slicing a truthy
non-string timestamp. -/
def txnEffect (ctx : RCtx) (txn : Rec) :
    Option (List Violation × Option ((Value × String) × Int)) :=
  ((txn.pyGetD "Amount" (.int 0)).toNum).bind (fun amount =>
    (((fromAccountOf ctx.accountMap txn).pyGetD "Balance" (.int 0)).cmpNum).bind
      (fun bal =>
        (contribOf txn (txnCustomerOf ctx.accountMap txn) amount).map
          (fun contrib =>
            (r1Violation ctx txn amount ++ r2Violation ctx txn amount
              ++ r3Violation ctx txn bal amount, contrib))))

/-- Apply an optional daily-total contribution
(`daily_totals[(cid, date)] += amount`). -/
def applyContrib (m : List ((Value × String) × Int)) :
    Option ((Value × String) × Int) → List ((Value × String) × Int)
  | none => m
  | some (k, a) => alAdd m k a

/-- State threaded through the transaction loop. -/
structure RiskState where
  violations : List Violation
  daily : List ((Value × String) × Int)
deriving DecidableEq, Repr

/-- The `for txn in transactions` loop. -/
def txnLoop (ctx : RCtx) : List Rec → RiskState → Option RiskState
  | [], st => some st
  | t :: ts, st =>
    match txnEffect ctx t with
    | none => none
    | some (vs, c) =>
      txnLoop ctx ts ⟨st.violations ++ vs, applyContrib st.daily c⟩

/-- Rule 4: one HIGH violation per `(customer, date)` whose accumulated
daily total exceeds 50M VND, in `daily_totals` insertion order. -/
def r4Violations (daily : List ((Value × String) × Int)) : List Violation :=
  daily.filterMap (fun p =>
    if 50000000 < p.2 then
      some ⟨"RULE_004", "HIGH", none, some p.1.1, none, some p.1.2⟩
    else none)

/-- The `failed_auths` defaultdict: per-customer count of logs with
`AuthStatus == 'FAIL'`, in first-failure order. -/
def buildFailedAuths (logs : List Rec) : List (Value × Int) :=
  logs.foldl (fun m a =>
    if a.pyGet "AuthStatus" == .str "FAIL" then
      alAdd m (a.pyGet "CustomerID") 1
    else m) []

/-- Rule 5: one MEDIUM violation per customer with 3 or more failed
authentication attempts. -/
def r5Violations (fails : List (Value × Int)) : List Violation :=
  fails.filterMap (fun p =>
    if 3 ≤ p.2 then some ⟨"RULE_005", "MEDIUM", none, some p.1, none, none⟩
    else none)

/-- `RiskMonitor.check_all_risks`: builds the lookup maps (`customer_map`
and `device_map` are only read for informational kwargs, but their
construction can still raise `KeyError`), walks the transactions emitting
Rules 1–3 and accumulating daily totals, then appends the Rule 4 and
Rule 5 violations.  `none` models an uncaught exception. -/
def checkAllRisks (d : RiskData) : Option (List Violation) := do
  let _customerMap ← buildMap "CustomerID" d.customers
  let _deviceMap ← buildMap "DeviceID" d.devices
  let accountMap ← buildMap "AccountID" d.accounts
  let ctx : RCtx := ⟨d.devices, accountMap, buildAuthMap d.authLogs⟩
  let st ← txnLoop ctx d.transactions ⟨[], []⟩
  return st.violations ++ r4Violations st.daily
    ++ r5Violations (buildFailedAuths d.authLogs)

/-! ## Generic helper lemmas -/

theorem contains_iff_mem {α : Type} [DecidableEq α] (l : List α) (a : α) :
    l.contains a = true ↔ a ∈ l := by
  simp

section AListLemmas

variable {κ α : Type} [DecidableEq κ]

theorem alGet?_nil (k : κ) : alGet? ([] : List (κ × α)) k = none := rfl

theorem alGet?_cons (p : κ × α) (m : List (κ × α)) (k : κ) :
    alGet? (p :: m) k = if p.1 = k then some p.2 else alGet? m k := by
  unfold alGet?
  simp only [List.find?]
  by_cases h : p.1 = k
  · rw [if_pos h, show (p.1 == k) = true by simp [h]]
    rfl
  · rw [if_neg h, show (p.1 == k) = false by simp [h]]

theorem alGet?_append (m1 m2 : List (κ × α)) (k : κ) :
    alGet? (m1 ++ m2) k =
      match alGet? m1 k with
      | some v => some v
      | none => alGet? m2 k := by
  induction m1 with
  | nil => simp [alGet?_nil]
  | cons p ps ih =>
    by_cases h : p.1 = k <;> simp [alGet?_cons, h, ih]

theorem alGet?_mapVal (m : List (κ × α)) (g : κ → α → α) (k : κ) :
    alGet? (m.map (fun p => (p.1, g p.1 p.2))) k =
      (alGet? m k).map (g k) := by
  induction m with
  | nil => rfl
  | cons p ps ih =>
    by_cases h : p.1 = k
    · subst h; simp [alGet?_cons]
    · simp [alGet?_cons, h, ih]

theorem alGet?_isSome_of_find? (m : List (κ × α)) (k : κ)
    (h : (m.find? (fun p => p.1 == k)).isSome) : (alGet? m k).isSome := by
  unfold alGet?
  cases hf : m.find? (fun p => p.1 == k) <;> simp_all

theorem alGet?_none_of_find? (m : List (κ × α)) (k : κ)
    (h : ¬(m.find? (fun p => p.1 == k)).isSome) : alGet? m k = none := by
  unfold alGet?
  cases hf : m.find? (fun p => p.1 == k) <;> simp_all

theorem alSet_get_same (m : List (κ × α)) (k : κ) (v : α) :
    alGet? (alSet m k v) k = some v := by
  unfold alSet
  by_cases h : (m.find? (fun p => p.1 == k)).isSome
  · simp only [h, if_true]
    rw [alGet?_mapVal m (fun key w => if key == k then v else w) k]
    have := alGet?_isSome_of_find? m k h
    cases hg : alGet? m k with
    | none => rw [hg] at this; simp at this
    | some w => simp
  · rw [if_neg h, alGet?_append, alGet?_none_of_find? m k h]
    simp [alGet?_cons]

theorem alSet_get_other (m : List (κ × α)) (k k' : κ) (v : α)
    (h : k ≠ k') : alGet? (alSet m k v) k' = alGet? m k' := by
  unfold alSet
  by_cases hs : (m.find? (fun p => p.1 == k)).isSome
  · simp only [hs, if_true]
    rw [alGet?_mapVal m (fun key w => if key == k then v else w) k']
    have hne : ¬(k' == k) = true := by simpa using fun hh => h hh.symm
    cases hg : alGet? m k' <;> simp [hne]
  · rw [if_neg hs, alGet?_append]
    cases hg : alGet? m k' with
    | some w => simp
    | none => simp [alGet?_cons, alGet?_nil, h]

theorem alAdd_get_same (m : List (κ × Int)) (k : κ) (a : Int) :
    alGet? (alAdd m k a) k = some ((alGet? m k).getD 0 + a) := by
  unfold alAdd
  by_cases h : (m.find? (fun p => p.1 == k)).isSome
  · simp only [h, if_true]
    rw [alGet?_mapVal m (fun key w => if key == k then w + a else w) k]
    have := alGet?_isSome_of_find? m k h
    cases hg : alGet? m k with
    | none => rw [hg] at this; simp at this
    | some w => simp
  · rw [if_neg h, alGet?_append, alGet?_none_of_find? m k h]
    simp [alGet?_cons]

theorem alAdd_get_other (m : List (κ × Int)) (k k' : κ) (a : Int)
    (h : k ≠ k') : alGet? (alAdd m k a) k' = alGet? m k' := by
  unfold alAdd
  by_cases hs : (m.find? (fun p => p.1 == k)).isSome
  · simp only [hs, if_true]
    rw [alGet?_mapVal m (fun key w => if key == k then w + a else w) k']
    have hne : ¬(k' == k) = true := by simpa using fun hh => h hh.symm
    cases hg : alGet? m k' <;> simp [hne]
  · rw [if_neg hs, alGet?_append]
    cases hg : alGet? m k' with
    | some w => simp
    | none => simp [alGet?_cons, alGet?_nil, h]

end AListLemmas

/-! ## Lemmas on the NULL-value / business-rule pass -/

/-- A record is marked failed by the NULL-value / business-rule pass
exactly when its issue contribution is nonempty. -/
def failsCheck (t : String) (fields : List String) (r : Rec) : Bool :=
  !((recordCheck t fields r).getD []).isEmpty

theorem checkTypeGo_success {t : String} {fields : List String} :
    ∀ {rs : List Rec} {is0 : List String} {fl0 : List Rec} {is : List String}
      {fl : List Rec},
      checkTypeGo t fields rs is0 fl0 = some (is, fl) →
      ∀ r ∈ rs, ∃ l, recordCheck t fields r = some l
  | [], _, _, _, _, _, r, hr => by simp at hr
  | r0 :: rs, is0, fl0, is, fl, h, r, hr => by
    simp only [checkTypeGo] at h
    cases hrc : recordCheck t fields r0 with
    | none => rw [hrc] at h; exact absurd h (by simp)
    | some ris =>
      rw [hrc] at h
      rcases List.mem_cons.mp hr with h0 | h1
      · exact ⟨ris, h0 ▸ hrc⟩
      · exact checkTypeGo_success h r h1

theorem checkTypeGo_failed {t : String} {fields : List String} :
    ∀ {rs : List Rec} {is0 : List String} {fl0 : List Rec} {is : List String}
      {fl : List Rec},
      checkTypeGo t fields rs is0 fl0 = some (is, fl) →
      fl = fl0 ++ rs.filter (failsCheck t fields)
  | [], _, _, _, _, h => by
    simp only [checkTypeGo, Option.some.injEq, Prod.mk.injEq] at h
    simp [h.2]
  | r0 :: rs, is0, fl0, is, fl, h => by
    simp only [checkTypeGo] at h
    cases hrc : recordCheck t fields r0 with
    | none => rw [hrc] at h; exact absurd h (by simp)
    | some ris =>
      rw [hrc] at h
      have ih := checkTypeGo_failed h
      by_cases he : ris.isEmpty
      · simp only [he, if_true] at ih
        rw [ih]
        simp [List.filter_cons, failsCheck, hrc, he]
      · simp only [he, if_false] at ih
        rw [ih]
        simp [List.filter_cons, failsCheck, hrc, he]

theorem checkTypeGo_clean {t : String} {fields : List String} :
    ∀ {rs : List Rec} {is0 : List String} {fl0 : List Rec},
      (∀ r ∈ rs, recordCheck t fields r = some []) →
      checkTypeGo t fields rs is0 fl0 = some (is0, fl0)
  | [], _, _, _ => rfl
  | r0 :: rs, is0, fl0, h => by
    have h0 := h r0 (List.mem_cons_self r0 rs)
    simp only [checkTypeGo, h0, List.isEmpty_nil, if_true, List.append_nil]
    exact checkTypeGo_clean (fun r hr => h r (List.mem_cons_of_mem r0 hr))

/-- The failed-record entry `typePass` contributes for its entity type:
no entry when the type is absent, the filtered record list otherwise. -/
def typeEntry (t : String) (fields : List String) (data : Data) :
    List (String × List Rec) :=
  match alGet? data t with
  | none => []
  | some rs => [(t, rs.filter (failsCheck t fields))]

theorem typePass_shape {t : String} {fields : List String} {data : Data}
    {acc acc' : List String × List (String × List Rec)}
    (h : typePass t fields data acc = some acc') :
    acc'.2 = acc.2 ++ typeEntry t fields data ∧
      ∀ rs, alGet? data t = some rs →
        ∀ r ∈ rs, ∃ l, recordCheck t fields r = some l := by
  unfold typePass at h
  unfold typeEntry
  cases hd : alGet? data t with
  | none =>
    rw [hd] at h
    simp only [Option.some.injEq] at h
    subst h
    exact ⟨by simp, by simp⟩
  | some rs =>
    rw [hd] at h
    dsimp only at h ⊢
    cases hct : checkTypeGo t fields rs [] [] with
    | none => rw [hct] at h; exact absurd h (by simp)
    | some p =>
      rw [hct] at h
      simp only [Option.bind_eq_bind, Option.some_bind, Option.pure_def,
        Option.some.injEq] at h
      subst h
      refine ⟨?_, ?_⟩
      · have := checkTypeGo_failed hct
        simp only [List.nil_append] at this
        simp [this]
      · intro rs' hrs' r hr
        cases hrs'
        exact checkTypeGo_success hct r hr

theorem phase1_shape {data : Data} {is1 : List String}
    {fl1 : List (String × List Rec)} (h : phase1 data = some (is1, fl1)) :
    fl1 = typeEntry "customers" ["NationalID", "Name", "Username"] data
        ++ typeEntry "accounts" ["CustomerID", "Balance"] data
        ++ typeEntry "transactions" ["Amount", "FromAccountID", "ToAccountID"] data ∧
      (∀ rs, alGet? data "customers" = some rs →
        ∀ r ∈ rs, ∃ l, recordCheck "customers" ["NationalID", "Name", "Username"] r = some l) ∧
      (∀ rs, alGet? data "accounts" = some rs →
        ∀ r ∈ rs, ∃ l, recordCheck "accounts" ["CustomerID", "Balance"] r = some l) ∧
      (∀ rs, alGet? data "transactions" = some rs →
        ∀ r ∈ rs, ∃ l, recordCheck "transactions" ["Amount", "FromAccountID", "ToAccountID"] r = some l) := by
  unfold phase1 at h
  cases h1 : typePass "customers" ["NationalID", "Name", "Username"] data ([], []) with
  | none => rw [h1] at h; simp at h
  | some a1 =>
    rw [h1] at h
    simp only [Option.bind_eq_bind, Option.some_bind] at h
    cases h2 : typePass "accounts" ["CustomerID", "Balance"] data a1 with
    | none => rw [h2] at h; simp at h
    | some a2 =>
      rw [h2] at h
      simp only [Option.some_bind] at h
      have s1 := typePass_shape h1
      have s2 := typePass_shape h2
      have s3 := typePass_shape h
      refine ⟨?_, s1.2, s2.2, s3.2⟩
      have e3 : fl1 = a2.2 ++ typeEntry "transactions" ["Amount", "FromAccountID", "ToAccountID"] data := s3.1
      rw [e3, s2.1, s1.1]
      simp

/-! ## Lemmas on the customer duplicate scan -/

/-- The flattened work list of the duplicate scan. -/
def poolOf (cs : List Rec) : List (String × Value × Rec) :=
  cs.flatMap dupEntries

theorem dupScan_eq_foldl (cs : List Rec) (is0 : List String) (fl0 : List Rec) :
    dupScan cs is0 fl0 = (poolOf cs).foldl dupStep ⟨[], is0, fl0⟩ := rfl

theorem dupEntries_carrier {c : Rec} {e : String × Value × Rec}
    (he : e ∈ dupEntries c) : e.2.2 = c := by
  simp only [dupEntries, List.mem_filterMap] at he
  obtain ⟨f, -, hf⟩ := he
  cases hg : c.get? f with
  | none => rw [hg] at hf; exact absurd hf (by simp)
  | some v =>
    rw [hg] at hf
    by_cases ht : v.truthy
    · simp only [ht, if_true, Option.some.injEq] at hf
      rw [← hf]
    · simp [ht] at hf

theorem poolOf_carrier {cs : List Rec} {e : String × Value × Rec}
    (he : e ∈ poolOf cs) : e.2.2 ∈ cs := by
  simp only [poolOf, List.mem_flatMap] at he
  obtain ⟨c, hc, he'⟩ := he
  rw [dupEntries_carrier he']
  exact hc

theorem mem_markFailed_self (l : List Rec) (x : Rec) : x ∈ markFailed l x := by
  unfold markFailed
  by_cases h : l.contains x
  · rw [if_pos h]; exact (contains_iff_mem l x).mp h
  · rw [if_neg h]; simp

theorem mem_markFailed_mono (l : List Rec) (x r : Rec) (hr : r ∈ l) :
    r ∈ markFailed l x := by
  unfold markFailed
  by_cases h : l.contains x
  · rwa [if_pos h]
  · rw [if_neg h]; exact List.mem_append_left _ hr

theorem mem_markFailed_elim (l : List Rec) (x r : Rec)
    (hr : r ∈ markFailed l x) : r ∈ l ∨ r = x := by
  unfold markFailed at hr
  by_cases h : l.contains x
  · rw [if_pos h] at hr; exact Or.inl hr
  · rw [if_neg h] at hr
    rcases List.mem_append.mp hr with h' | h'
    · exact Or.inl h'
    · exact Or.inr (by simpa using h')

theorem dupStep_failed_mono (st : DupState) (e : String × Value × Rec) :
    ∀ r ∈ st.failed, r ∈ (dupStep st e).failed := by
  intro r hr
  unfold dupStep
  cases hf : st.seen.find? (fun p => p.1 == e.2.1) with
  | none => exact hr
  | some p =>
    exact mem_markFailed_mono _ _ _ (mem_markFailed_mono _ _ _ hr)

theorem dupStep_seen_cases (st : DupState) (e : String × Value × Rec) :
    (dupStep st e).seen = st.seen ∨
      (alGet? st.seen e.2.1 = none ∧
        (dupStep st e).seen = st.seen ++ [(e.2.1, e.2.2)]) := by
  unfold dupStep
  cases hf : st.seen.find? (fun p => p.1 == e.2.1) with
  | none =>
    right
    constructor
    · unfold alGet?; rw [hf]; rfl
    · rfl
  | some p => left; rfl

theorem foldl_dupStep_failed_mono (l : List (String × Value × Rec)) :
    ∀ (st : DupState) r, r ∈ st.failed → r ∈ (l.foldl dupStep st).failed := by
  induction l with
  | nil => intro st r hr; exact hr
  | cons e es ih =>
    intro st r hr
    exact ih (dupStep st e) r (dupStep_failed_mono st e r hr)

/-- The invariant of the duplicate scan relative to a processed prefix
`P`: every processed entry's record is already failed or is the record
registered in `seen_values` for its value; once a value has been seen
twice, its registered record is failed; and every processed value is
registered. -/
def DupInv (P : List (String × Value × Rec)) (st : DupState) : Prop :=
  (∀ e ∈ P, e.2.2 ∈ st.failed ∨ alGet? st.seen e.2.1 = some e.2.2) ∧
  (∀ v : Value, 2 ≤ (P.map (fun e => e.2.1)).count v →
    ∀ c, alGet? st.seen v = some c → c ∈ st.failed) ∧
  (∀ e ∈ P, (alGet? st.seen e.2.1).isSome)

theorem dupStep_failed_new (st : DupState) (e : String × Value × Rec) {p : Value × Rec}
    (hf : st.seen.find? (fun q => q.1 == e.2.1) = some p) :
    p.2 ∈ (dupStep st e).failed ∧ e.2.2 ∈ (dupStep st e).failed := by
  unfold dupStep
  rw [hf]
  exact ⟨mem_markFailed_mono _ _ _ (mem_markFailed_self _ _),
    mem_markFailed_self _ _⟩

theorem dupInv_step {P : List (String × Value × Rec)} {st : DupState}
    (hinv : DupInv P st) (e : String × Value × Rec) :
    DupInv (P ++ [e]) (dupStep st e) := by
  obtain ⟨ha, hb, hc⟩ := hinv
  cases hf : st.seen.find? (fun q => q.1 == e.2.1) with
  | some p =>
    have hseen : (dupStep st e).seen = st.seen := by
      unfold dupStep; rw [hf]
    have hget : alGet? st.seen e.2.1 = some p.2 := by
      unfold alGet?; rw [hf]; rfl
    have hnew := dupStep_failed_new st e hf
    refine ⟨?_, ?_, ?_⟩
    · intro e' he'
      rcases List.mem_append.mp he' with h | h
      · rcases ha e' h with h' | h'
        · exact Or.inl (dupStep_failed_mono st e _ h')
        · rw [hseen]; exact Or.inr h'
      · have : e' = e := by simpa using h
        subst this
        exact Or.inl hnew.2
    · intro v hv c hcv
      rw [hseen] at hcv
      by_cases hev : v = e.2.1
      · subst hev
        rw [hget] at hcv
        cases hcv
        exact hnew.1
      · have : 2 ≤ (P.map (fun e => e.2.1)).count v := by
          have := hv
          rwa [List.map_append, List.count_append,
            show ([e].map (fun e => e.2.1)).count v = 0 by
              simp [List.count_singleton]
              exact fun hh => absurd hh.symm hev] at this
        exact dupStep_failed_mono st e c (hb v this c hcv)
    · intro e' he'
      rw [hseen]
      rcases List.mem_append.mp he' with h | h
      · exact hc e' h
      · have : e' = e := by simpa using h
        subst this
        rw [hget]; rfl
  | none =>
    have hseen : (dupStep st e).seen = st.seen ++ [(e.2.1, e.2.2)] := by
      unfold dupStep; rw [hf]
    have hrest : (dupStep st e).failed = st.failed := by
      unfold dupStep; rw [hf]
    have hget0 : alGet? st.seen e.2.1 = none := by
      unfold alGet?; rw [hf]; rfl
    have hcount0 : (P.map (fun e => e.2.1)).count e.2.1 = 0 := by
      by_contra hcnt
      have hpos : 0 < (P.map (fun e => e.2.1)).count e.2.1 :=
        Nat.pos_of_ne_zero hcnt
      have hmem := List.count_pos_iff.mp hpos
      obtain ⟨e', he', hev⟩ := List.mem_map.mp hmem
      have := hc e' he'
      have hlook : alGet? st.seen e'.2.1 = none := by rw [hev, hget0]
      rw [hlook] at this
      simp at this
    refine ⟨?_, ?_, ?_⟩
    · intro e' he'
      rcases List.mem_append.mp he' with h | h
      · rcases ha e' h with h' | h'
        · rw [hrest]; exact Or.inl h'
        · right
          rw [hseen, alGet?_append, h']
      · have : e' = e := by simpa using h
        subst this
        right
        rw [hseen, alGet?_append, hget0]
        simp [alGet?_cons]
    · intro v hv c hcv
      by_cases hev : v = e.2.1
      · subst hev
        have : 2 ≤ (P.map (fun e => e.2.1)).count e.2.1 + 1 := by
          have := hv
          rwa [List.map_append, List.count_append,
            show ([e].map (fun e => e.2.1)).count e.2.1 = 1 by
              simp [List.count_singleton]] at this
        rw [hcount0] at this
        omega
      · have h2 : 2 ≤ (P.map (fun e => e.2.1)).count v := by
          have := hv
          rwa [List.map_append, List.count_append,
            show ([e].map (fun e => e.2.1)).count v = 0 by
              simp [List.count_singleton]
              exact fun hh => absurd hh.symm hev] at this
        have hcv' : alGet? st.seen v = some c := by
          rw [hseen, alGet?_append] at hcv
          cases hg : alGet? st.seen v with
          | some w =>
            rw [hg] at hcv
            have hwc : w = c := by simpa using hcv
            rw [← hwc] at *
          | none =>
            rw [hg] at hcv
            simp only [alGet?_cons] at hcv
            rw [if_neg (fun hh => hev hh.symm)] at hcv
            exact absurd hcv (by simp [alGet?_nil])
        rw [hrest]
        exact hb v h2 c hcv'
    · intro e' he'
      rw [hseen, alGet?_append]
      rcases List.mem_append.mp he' with h | h
      · have := hc e' h
        cases hg : alGet? st.seen e'.2.1 with
        | some w => rfl
        | none => rw [hg] at this; simp at this
      · have : e' = e := by simpa using h
        subst this
        rw [hget0]
        simp [alGet?_cons]

theorem foldl_dupInv (R : List (String × Value × Rec)) :
    ∀ (P : List (String × Value × Rec)) (st : DupState), DupInv P st →
      DupInv (P ++ R) (R.foldl dupStep st) := by
  induction R with
  | nil => intro P st h; simpa using h
  | cons e es ih =>
    intro P st h
    have := ih (P ++ [e]) (dupStep st e) (dupInv_step h e)
    simpa using this

/-- The duplicate-scan guarantee: if a (truthy) value occurs at least
twice in the scan's work list, every record carrying it ends up in the
failed list. -/
theorem dupScan_guarantee {cs : List Rec} {is0 : List String}
    {fl0 : List Rec} {v : Value}
    (hcnt : 2 ≤ ((poolOf cs).map (fun e => e.2.1)).count v)
    {e : String × Value × Rec} (he : e ∈ poolOf cs) (hev : e.2.1 = v) :
    e.2.2 ∈ (dupScan cs is0 fl0).failed := by
  rw [dupScan_eq_foldl]
  have hinv : DupInv [] (⟨[], is0, fl0⟩ : DupState) := by
    refine ⟨?_, ?_, ?_⟩ <;> intro x hx <;> simp at hx
  have hfinal := foldl_dupInv (poolOf cs) [] ⟨[], is0, fl0⟩ hinv
  simp only [List.nil_append] at hfinal
  obtain ⟨ha, hb, hc⟩ := hfinal
  rcases ha e he with h | h
  · exact h
  · subst hev
    exact hb e.2.1 hcnt e.2.2 h

/-- When no (truthy, present) value repeats in the work list, the scan
registers values but adds no issue and fails no record. -/
theorem foldl_dupStep_fresh :
    ∀ (l : List (String × Value × Rec)) (st : DupState),
      (∀ e ∈ l, alGet? st.seen e.2.1 = none) →
      (l.map (fun e => e.2.1)).Nodup →
      (l.foldl dupStep st).issues = st.issues ∧
        (l.foldl dupStep st).failed = st.failed
  | [], st, _, _ => ⟨rfl, rfl⟩
  | e :: es, st, hfresh, hnd => by
    have he := hfresh e (List.mem_cons_self e es)
    have hf : st.seen.find? (fun q => q.1 == e.2.1) = none := by
      unfold alGet? at he
      cases hff : st.seen.find? (fun q => q.1 == e.2.1) with
      | none => rfl
      | some p => rw [hff] at he; simp at he
    have hstep : dupStep st e =
        { st with seen := st.seen ++ [(e.2.1, e.2.2)] } := by
      unfold dupStep; rw [hf]
    rw [List.foldl_cons, hstep]
    rw [List.map_cons, List.nodup_cons] at hnd
    refine foldl_dupStep_fresh es _ ?_ hnd.2
    intro e' he'
    rw [alGet?_append]
    rw [hfresh e' (List.mem_cons_of_mem e he'), alGet?_cons]
    rw [if_neg ?_, alGet?_nil]
    intro hh
    exact hnd.1 (hh ▸ List.mem_map_of_mem (fun x => x.2.1) he')

theorem dupScan_noop (cs : List Rec) (is0 : List String) (fl0 : List Rec)
    (hnd : ((poolOf cs).map (fun e => e.2.1)).Nodup) :
    (dupScan cs is0 fl0).issues = is0 ∧ (dupScan cs is0 fl0).failed = fl0 := by
  rw [dupScan_eq_foldl]
  exact foldl_dupStep_fresh (poolOf cs) ⟨[], is0, fl0⟩
    (fun e _ => by rfl) hnd

/-- Records in the scan's failed output come from the initial failed list
or from the customer list itself. -/
theorem dupScan_failed_sub {cs : List Rec} {is0 : List String}
    {fl0 : List Rec} {r : Rec} (hr : r ∈ (dupScan cs is0 fl0).failed) :
    r ∈ fl0 ∨ r ∈ cs := by
  rw [dupScan_eq_foldl] at hr
  suffices h : ∀ (l : List (String × Value × Rec)) (st : DupState),
      (∀ e ∈ l, e.2.2 ∈ cs) → (∀ p ∈ st.seen, p.2 ∈ cs) →
      (∀ x ∈ st.failed, x ∈ fl0 ∨ x ∈ cs) →
      ∀ x ∈ (l.foldl dupStep st).failed, x ∈ fl0 ∨ x ∈ cs by
    refine h (poolOf cs) ⟨[], is0, fl0⟩
      (fun e he => poolOf_carrier he) (by simp) (fun x hx => Or.inl hx) r hr
  intro l
  induction l with
  | nil => intro st _ _ hfl x hx; exact hfl x hx
  | cons e es ih =>
    intro st hl hseen hfl x hx
    refine ih (dupStep st e) (fun e' he' => hl e' (List.mem_cons_of_mem e he'))
      ?_ ?_ x hx
    · intro p hp
      rcases dupStep_seen_cases st e with h | ⟨-, h⟩
      · rw [h] at hp; exact hseen p hp
      · rw [h] at hp
        rcases List.mem_append.mp hp with h' | h'
        · exact hseen p h'
        · have : p = (e.2.1, e.2.2) := by simpa using h'
          rw [this]
          exact hl e (List.mem_cons_self e es)
    · intro y hy
      unfold dupStep at hy
      cases hf : st.seen.find? (fun q => q.1 == e.2.1) with
      | none => rw [hf] at hy; exact hfl y hy
      | some p =>
        rw [hf] at hy
        dsimp only at hy
        rcases mem_markFailed_elim _ _ _ hy with hy1 | hy1
        · rcases mem_markFailed_elim _ _ _ hy1 with hy2 | hy2
          · exact hfl y hy2
          · subst hy2
            refine Or.inr (hseen p ?_)
            exact List.mem_of_find?_eq_some hf
        · subst hy1
          exact Or.inr (hl e (List.mem_cons_self e es))

/-- The scan's `seen_values` and failed output do not depend on the
incoming issue list. -/
theorem foldl_dupStep_issues_irrel :
    ∀ (l : List (String × Value × Rec)) (seen : List (Value × Rec))
      (is is' : List String) (fl : List Rec),
      (l.foldl dupStep ⟨seen, is, fl⟩).seen =
          (l.foldl dupStep ⟨seen, is', fl⟩).seen ∧
        (l.foldl dupStep ⟨seen, is, fl⟩).failed =
          (l.foldl dupStep ⟨seen, is', fl⟩).failed
  | [], _, _, _, _ => ⟨rfl, rfl⟩
  | e :: es, seen, is, is', fl => by
    rw [List.foldl_cons, List.foldl_cons]
    unfold dupStep
    cases hf : List.find? (fun q => q.1 == e.2.1) seen with
    | none => exact foldl_dupStep_issues_irrel es _ _ _ _
    | some p => exact foldl_dupStep_issues_irrel es _ _ _ _

theorem dupScan_issues_irrel (cs : List Rec) (is0 is0' : List String)
    (fl0 : List Rec) :
    (dupScan cs is0 fl0).failed = (dupScan cs is0' fl0).failed := by
  rw [dupScan_eq_foldl, dupScan_eq_foldl]
  exact (foldl_dupStep_issues_irrel (poolOf cs) [] is0 is0' fl0).2

/-- Filtering customers first and flattening is the same as flattening
first and filtering by the carrier record. -/
theorem poolOf_filter (cs : List Rec) (p : Rec → Bool) :
    poolOf (cs.filter p) = (poolOf cs).filter (fun e => p e.2.2) := by
  induction cs with
  | nil => rfl
  | cons c cs ih =>
    by_cases hc : p c
    · rw [List.filter_cons_of_pos hc]
      unfold poolOf at *
      rw [List.flatMap_cons, List.flatMap_cons, List.filter_append, ih]
      congr 1
      refine (List.filter_eq_self.mpr ?_).symm
      intro e he
      rw [dupEntries_carrier he]
      exact hc
    · rw [List.filter_cons_of_neg hc]
      unfold poolOf at *
      rw [List.flatMap_cons, List.filter_append, ih]
      have : (dupEntries c).filter (fun e => p e.2.2) = [] := by
        refine List.filter_eq_nil_iff.mpr ?_
        intro e he
        rw [dupEntries_carrier he]
        simpa using hc
      rw [this, List.nil_append]

/-! ## The shape of `check_all_quality`'s failed-record dictionary -/

theorem typeEntry_get_self (t : String) (fields : List String) (data : Data) :
    alGet? (typeEntry t fields data) t =
      (alGet? data t).map (fun rs => rs.filter (failsCheck t fields)) := by
  unfold typeEntry
  cases hd : alGet? data t with
  | none => rfl
  | some rs => simp [alGet?_cons]

theorem typeEntry_get_other (t t' : String) (fields : List String)
    (data : Data) (h : t ≠ t') :
    alGet? (typeEntry t fields data) t' = none := by
  unfold typeEntry
  cases hd : alGet? data t with
  | none => rfl
  | some rs => simp [alGet?_cons, alGet?_nil, h]

/-- What `check_all_quality` leaves in `failed_records`, per entity type,
plus crash-freedom of the per-record checks on every checked list. -/
theorem checkAllQuality_spec {data : Data} {st : QState}
    (h : checkAllQuality data = some st) :
    alGet? st.failed "accounts" =
        (alGet? data "accounts").map
          (fun rs => rs.filter (failsCheck "accounts" ["CustomerID", "Balance"])) ∧
    alGet? st.failed "transactions" =
        (alGet? data "transactions").map
          (fun rs => rs.filter
            (failsCheck "transactions" ["Amount", "FromAccountID", "ToAccountID"])) ∧
    alGet? st.failed "customers" =
        (alGet? data "customers").map (fun cs =>
          (dupScan cs []
            (cs.filter (failsCheck "customers" ["NationalID", "Name", "Username"]))).failed) ∧
    (∀ t, t ≠ "customers" → t ≠ "accounts" → t ≠ "transactions" →
      alGet? st.failed t = none) ∧
    (∀ rs, alGet? data "customers" = some rs →
      ∀ r ∈ rs, ∃ l, recordCheck "customers" ["NationalID", "Name", "Username"] r = some l) ∧
    (∀ rs, alGet? data "accounts" = some rs →
      ∀ r ∈ rs, ∃ l, recordCheck "accounts" ["CustomerID", "Balance"] r = some l) ∧
    (∀ rs, alGet? data "transactions" = some rs →
      ∀ r ∈ rs, ∃ l, recordCheck "transactions" ["Amount", "FromAccountID", "ToAccountID"] r = some l) := by
  unfold checkAllQuality at h
  by_cases hemp : data.isEmpty
  · rw [if_pos hemp] at h
    have hdata : data = [] := List.isEmpty_iff.mp hemp
    subst hdata
    simp only [Option.some.injEq] at h
    subst h
    refine ⟨rfl, rfl, rfl, fun t _ _ _ => rfl, ?_, ?_, ?_⟩ <;>
      intro rs hrs <;> exact absurd hrs (by simp [alGet?_nil])
  · rw [if_neg hemp] at h
    cases hp : phase1 data with
    | none => rw [hp] at h; simp at h
    | some p =>
      obtain ⟨is1, fl1⟩ := p
      rw [hp] at h
      simp only [Option.bind_eq_bind, Option.some_bind] at h
      obtain ⟨hshape, hsc, hsa, hst⟩ := phase1_shape hp
      have hgetA : alGet? fl1 "accounts" =
          (alGet? data "accounts").map
            (fun rs => rs.filter (failsCheck "accounts" ["CustomerID", "Balance"])) := by
        rw [hshape, alGet?_append, alGet?_append]
        rw [typeEntry_get_other "customers" "accounts" _ _ (by decide)]
        rw [typeEntry_get_self]
        cases hd : alGet? data "accounts" with
        | none =>
          rw [typeEntry_get_other "transactions" "accounts" _ _ (by decide)]
          rfl
        | some rs => rfl
      have hgetT : alGet? fl1 "transactions" =
          (alGet? data "transactions").map
            (fun rs => rs.filter
              (failsCheck "transactions" ["Amount", "FromAccountID", "ToAccountID"])) := by
        rw [hshape, alGet?_append, alGet?_append]
        rw [typeEntry_get_other "customers" "transactions" _ _ (by decide)]
        rw [typeEntry_get_other "accounts" "transactions" _ _ (by decide)]
        rw [typeEntry_get_self]
      have hgetC : alGet? fl1 "customers" =
          (alGet? data "customers").map
            (fun cs => cs.filter (failsCheck "customers" ["NationalID", "Name", "Username"])) := by
        rw [hshape, alGet?_append, alGet?_append]
        rw [typeEntry_get_self]
        cases hd : alGet? data "customers" with
        | none =>
          rw [typeEntry_get_other "accounts" "customers" _ _ (by decide)]
          rw [typeEntry_get_other "transactions" "customers" _ _ (by decide)]
          rfl
        | some cs => rfl
      have hgetO : ∀ t, t ≠ "customers" → t ≠ "accounts" → t ≠ "transactions" →
          alGet? fl1 t = none := by
        intro t h1 h2 h3
        rw [hshape, alGet?_append, alGet?_append]
        rw [typeEntry_get_other "customers" t _ _ (fun hh => h1 hh.symm)]
        rw [typeEntry_get_other "accounts" t _ _ (fun hh => h2 hh.symm)]
        rw [typeEntry_get_other "transactions" t _ _ (fun hh => h3 hh.symm)]
      cases hcs : alGet? data "customers" with
      | none =>
        rw [hcs] at h
        dsimp only at h
        simp only [Option.pure_def, Option.some.injEq] at h
        subst h
        rw [hcs] at hgetC
        exact ⟨hgetA, hgetT, hgetC, hgetO,
          fun rs hrs => Option.noConfusion hrs, hsa, hst⟩
      | some cs =>
        rw [hcs] at h
        dsimp only at h
        simp only [Option.pure_def, Option.some.injEq] at h
        rw [hcs] at hgetC
        have hcf : (alGet? fl1 "customers").getD [] =
            cs.filter (failsCheck "customers" ["NationalID", "Name", "Username"]) := by
          rw [hgetC]; rfl
        have hfailed : st.failed = alSet fl1 "customers"
            (dupScan cs is1
              (cs.filter (failsCheck "customers" ["NationalID", "Name", "Username"]))).failed := by
          rw [← h, ← hcf]
        refine ⟨?_, ?_, ?_, ?_,
          fun rs hrs => hsc rs (by rw [hcs]; exact hrs), hsa, hst⟩
        · rw [hfailed, alSet_get_other _ _ _ _ (by decide), hgetA]
        · rw [hfailed, alSet_get_other _ _ _ _ (by decide), hgetT]
        · rw [hfailed, alSet_get_same, dupScan_issues_irrel cs is1 []]
          rfl
        · intro t h1 h2 h3
          rw [hfailed, alSet_get_other _ _ _ _ (fun hh => h1 hh.symm)]
          exact hgetO t h1 h2 h3

/-! ## Clean-output lemmas -/

theorem getCleanData_lookup (data : Data) (failed : List (String × List Rec))
    (t : String) :
    alGet? (getCleanData data failed) t =
      (alGet? data t).map
        (fun rs => rs.filter (fun r => !((alGet? failed t).getD []).contains r)) := by
  unfold getCleanData
  exact alGet?_mapVal data
    (fun t rs => rs.filter (fun r => !((alGet? failed t).getD []).contains r)) t

theorem recordCheck_parts {t : String} {fields : List String} {r : Rec}
    {l : List String} (h : recordCheck t fields r = some l) :
    ∃ bis tis, l = nullIssues t fields r ++ bis ++ tis := by
  unfold recordCheck at h
  cases hb : (if t == "accounts" then accountIssues r else some []) with
  | none => rw [hb] at h; simp at h
  | some bis =>
    rw [hb] at h
    cases ht : (if t == "transactions" then txnIssues r else some []) with
    | none => rw [ht] at h; simp at h
    | some tis =>
      rw [ht] at h
      simp only [Option.some_bind, Option.some.injEq] at h
      exact ⟨bis, tis, h.symm⟩

theorem recordCheck_empty_null {t : String} {fields : List String} {r : Rec}
    (h : recordCheck t fields r = some []) :
    ∀ f ∈ fields, isNullField r f = false := by
  obtain ⟨bis, tis, hl⟩ := recordCheck_parts h
  have hnil : nullIssues t fields r = [] := by
    rcases List.append_eq_nil.mp
      (List.append_eq_nil.mp hl.symm).1 with ⟨h1, -⟩
    exact h1
  intro f hf
  unfold nullIssues at hnil
  rw [List.map_eq_nil_iff] at hnil
  by_contra hff
  have : f ∈ fields.filter (fun f => isNullField r f) :=
    List.mem_filter.mpr ⟨hf, by simpa using hff⟩
  rw [hnil] at this
  simp at this

theorem clean_accounts_mem {data : Data} {st : QState} {r : Rec}
    (h : checkAllQuality data = some st)
    (hr : r ∈ (alGet? (getCleanData data st.failed) "accounts").getD []) :
    ∃ rs, alGet? data "accounts" = some rs ∧ r ∈ rs ∧
      recordCheck "accounts" ["CustomerID", "Balance"] r = some [] := by
  obtain ⟨hA, -, -, -, -, hsa, -⟩ := checkAllQuality_spec h
  rw [getCleanData_lookup] at hr
  cases hd : alGet? data "accounts" with
  | none => rw [hd] at hr; simp at hr
  | some rs =>
    rw [hd] at hr
    simp only [Option.map_some', Option.getD_some, List.mem_filter] at hr
    obtain ⟨hmem, hnc⟩ := hr
    refine ⟨rs, rfl, hmem, ?_⟩
    have hfl : (alGet? st.failed "accounts").getD [] =
        rs.filter (failsCheck "accounts" ["CustomerID", "Balance"]) := by
      rw [hA, hd]; rfl
    rw [hfl] at hnc
    have hnotfail : ¬failsCheck "accounts" ["CustomerID", "Balance"] r := by
      intro hfail
      have : r ∈ rs.filter (failsCheck "accounts" ["CustomerID", "Balance"]) :=
        List.mem_filter.mpr ⟨hmem, hfail⟩
      rw [← contains_iff_mem] at this
      rw [this] at hnc
      simp at hnc
    obtain ⟨l, hl⟩ := hsa rs hd r hmem
    unfold failsCheck at hnotfail
    rw [hl] at hnotfail
    simp only [Option.getD_some, Bool.not_eq_true', Bool.not_eq_false] at hnotfail
    rw [List.isEmpty_iff.mp hnotfail] at hl
    exact hl

theorem clean_transactions_mem {data : Data} {st : QState} {r : Rec}
    (h : checkAllQuality data = some st)
    (hr : r ∈ (alGet? (getCleanData data st.failed) "transactions").getD []) :
    ∃ rs, alGet? data "transactions" = some rs ∧ r ∈ rs ∧
      recordCheck "transactions" ["Amount", "FromAccountID", "ToAccountID"] r = some [] := by
  obtain ⟨-, hT, -, -, -, -, hst'⟩ := checkAllQuality_spec h
  rw [getCleanData_lookup] at hr
  cases hd : alGet? data "transactions" with
  | none => rw [hd] at hr; simp at hr
  | some rs =>
    rw [hd] at hr
    simp only [Option.map_some', Option.getD_some, List.mem_filter] at hr
    obtain ⟨hmem, hnc⟩ := hr
    refine ⟨rs, rfl, hmem, ?_⟩
    have hfl : (alGet? st.failed "transactions").getD [] =
        rs.filter (failsCheck "transactions" ["Amount", "FromAccountID", "ToAccountID"]) := by
      rw [hT, hd]; rfl
    rw [hfl] at hnc
    have hnotfail : ¬failsCheck "transactions" ["Amount", "FromAccountID", "ToAccountID"] r := by
      intro hfail
      have : r ∈ rs.filter (failsCheck "transactions" ["Amount", "FromAccountID", "ToAccountID"]) :=
        List.mem_filter.mpr ⟨hmem, hfail⟩
      rw [← contains_iff_mem] at this
      rw [this] at hnc
      simp at hnc
    obtain ⟨l, hl⟩ := hst' rs hd r hmem
    unfold failsCheck at hnotfail
    rw [hl] at hnotfail
    simp only [Option.getD_some, Bool.not_eq_true', Bool.not_eq_false] at hnotfail
    rw [List.isEmpty_iff.mp hnotfail] at hl
    exact hl

theorem clean_customers_mem {data : Data} {st : QState} {r : Rec}
    (h : checkAllQuality data = some st)
    (hr : r ∈ (alGet? (getCleanData data st.failed) "customers").getD []) :
    ∃ cs, alGet? data "customers" = some cs ∧ r ∈ cs ∧
      recordCheck "customers" ["NationalID", "Name", "Username"] r = some [] ∧
      r ∉ (dupScan cs []
        (cs.filter (failsCheck "customers" ["NationalID", "Name", "Username"]))).failed := by
  obtain ⟨-, -, hC, -, hsc, -, -⟩ := checkAllQuality_spec h
  rw [getCleanData_lookup] at hr
  cases hd : alGet? data "customers" with
  | none => rw [hd] at hr; simp at hr
  | some cs =>
    rw [hd] at hr
    simp only [Option.map_some', Option.getD_some, List.mem_filter] at hr
    obtain ⟨hmem, hnc⟩ := hr
    have hfl : (alGet? st.failed "customers").getD [] =
        (dupScan cs []
          (cs.filter (failsCheck "customers" ["NationalID", "Name", "Username"]))).failed := by
      rw [hC, hd]; rfl
    rw [hfl] at hnc
    have hnmem : r ∉ (dupScan cs []
        (cs.filter (failsCheck "customers" ["NationalID", "Name", "Username"]))).failed := by
      intro hmem'
      rw [← contains_iff_mem] at hmem'
      rw [hmem'] at hnc
      simp at hnc
    refine ⟨cs, rfl, hmem, ?_, hnmem⟩
    have hnotfail : ¬failsCheck "customers" ["NationalID", "Name", "Username"] r := by
      intro hfail
      refine hnmem ?_
      have hr0 : r ∈ cs.filter (failsCheck "customers" ["NationalID", "Name", "Username"]) :=
        List.mem_filter.mpr ⟨hmem, hfail⟩
      rw [dupScan_eq_foldl]
      exact foldl_dupStep_failed_mono _ _ r hr0
    obtain ⟨l, hl⟩ := hsc cs hd r hmem
    unfold failsCheck at hnotfail
    rw [hl] at hnotfail
    simp only [Option.getD_some, Bool.not_eq_true', Bool.not_eq_false] at hnotfail
    rw [List.isEmpty_iff.mp hnotfail] at hl
    exact hl

/-! ## A run on fully clean data is a no-op -/

/-- The failed-record entry a type contributes when none of its records
has an issue. -/
def cleanEntry (t : String) (data : Data) : List (String × List Rec) :=
  match alGet? data t with
  | none => []
  | some _ => [(t, [])]

theorem typePass_clean {t : String} {fields : List String} {data : Data}
    (acc : List String × List (String × List Rec))
    (h : ∀ rs, alGet? data t = some rs → ∀ r ∈ rs, recordCheck t fields r = some []) :
    typePass t fields data acc = some (acc.1, acc.2 ++ cleanEntry t data) := by
  unfold typePass cleanEntry
  cases hd : alGet? data t with
  | none => simp
  | some rs =>
    dsimp only
    rw [checkTypeGo_clean (h rs hd)]
    simp

theorem cleanEntry_get (t t' : String) (data : Data) {l : List Rec}
    (h : alGet? (cleanEntry t data) t' = some l) : l = [] := by
  unfold cleanEntry at h
  cases hd : alGet? data t with
  | none => rw [hd] at h; exact absurd h (by simp [alGet?_nil])
  | some rs =>
    rw [hd] at h
    rw [alGet?_cons] at h
    by_cases ht : t = t'
    · rw [if_pos ht] at h; simpa using h.symm
    · rw [if_neg ht] at h; exact absurd h (by simp [alGet?_nil])

theorem checkAllQuality_all_clean {data : Data}
    (hc : ∀ rs, alGet? data "customers" = some rs →
      ∀ r ∈ rs, recordCheck "customers" ["NationalID", "Name", "Username"] r = some [])
    (ha : ∀ rs, alGet? data "accounts" = some rs →
      ∀ r ∈ rs, recordCheck "accounts" ["CustomerID", "Balance"] r = some [])
    (ht : ∀ rs, alGet? data "transactions" = some rs →
      ∀ r ∈ rs, recordCheck "transactions" ["Amount", "FromAccountID", "ToAccountID"] r = some [])
    (hdup : ∀ cs, alGet? data "customers" = some cs →
      ((poolOf cs).map (fun e => e.2.1)).Nodup) :
    ∃ st, checkAllQuality data = some st ∧
      ∀ t, (alGet? st.failed t).getD [] = [] := by
  have hentries : ∀ t' l,
      alGet? (cleanEntry "customers" data ++ cleanEntry "accounts" data
        ++ cleanEntry "transactions" data) t' = some l → l = [] := by
    intro t' l hl
    rw [alGet?_append, alGet?_append] at hl
    cases h1 : alGet? (cleanEntry "customers" data) t' with
    | some x =>
      rw [h1] at hl
      cases hl
      exact cleanEntry_get _ _ _ h1
    | none =>
      rw [h1] at hl
      dsimp only at hl
      cases h2 : alGet? (cleanEntry "accounts" data) t' with
      | some x =>
        rw [h2] at hl
        cases hl
        exact cleanEntry_get _ _ _ h2
      | none =>
        rw [h2] at hl
        dsimp only at hl
        exact cleanEntry_get _ _ _ hl
  have hp1 : phase1 data = some ([],
      cleanEntry "customers" data ++ cleanEntry "accounts" data
        ++ cleanEntry "transactions" data) := by
    unfold phase1
    rw [typePass_clean ([], []) hc]
    simp only [Option.bind_eq_bind, Option.some_bind]
    rw [typePass_clean _ ha]
    simp only [Option.some_bind]
    rw [typePass_clean _ ht]
    simp
  unfold checkAllQuality
  by_cases hemp : data.isEmpty
  · exact ⟨⟨[], []⟩, by rw [if_pos hemp], fun t => by simp [alGet?_nil]⟩
  · rw [if_neg hemp, hp1]
    simp only [Option.bind_eq_bind, Option.some_bind]
    cases hcs : alGet? data "customers" with
    | none =>
      refine ⟨_, rfl, ?_⟩
      intro t
      cases hl : alGet? (cleanEntry "customers" data ++ cleanEntry "accounts" data
          ++ cleanEntry "transactions" data) t with
      | none => simp [hl]
      | some l => simp [hl, hentries t l hl]
    | some cs =>
      have hcf : (alGet? (cleanEntry "customers" data ++ cleanEntry "accounts" data
          ++ cleanEntry "transactions" data) "customers").getD [] = [] := by
        cases hl : alGet? (cleanEntry "customers" data ++ cleanEntry "accounts" data
            ++ cleanEntry "transactions" data) "customers" with
        | none => simp
        | some l => simp [hentries _ l hl]
      rw [hcf]
      have hnoop := dupScan_noop cs [] [] (hdup cs hcs)
      refine ⟨_, rfl, ?_⟩
      intro t
      by_cases htc : t = "customers"
      · subst htc
        rw [alSet_get_same, hnoop.2]
        rfl
      · rw [alSet_get_other _ _ _ _ (fun hh => htc hh.symm)]
        cases hl : alGet? (cleanEntry "customers" data ++ cleanEntry "accounts" data
            ++ cleanEntry "transactions" data) t with
        | none => simp
        | some l => simp [hentries t l hl]

theorem getCleanData_id {data : Data} {failed : List (String × List Rec)}
    (h : ∀ t, (alGet? failed t).getD [] = []) :
    getCleanData data failed = data := by
  unfold getCleanData
  induction data with
  | nil => rfl
  | cons p ps ih =>
    rw [List.map_cons, ih]
    congr 1
    rw [h p.1]
    exact Prod.ext rfl (List.filter_eq_self.mpr (fun a _ => rfl))

/-! ## Claim C1 -/

/-- The clean output and the failed-record list of entity type `t`
partition the original record list `recs`: each original record is in
exactly one of the two, and both are drawn from the original list. -/
def partitionsExactly (data : Data) (st : QState) (t : String)
    (recs : List Rec) : Prop :=
  (∀ r ∈ recs,
      r ∈ (alGet? (getCleanData data st.failed) t).getD [] ↔
        r ∉ (alGet? st.failed t).getD []) ∧
  (∀ r ∈ (alGet? st.failed t).getD [], r ∈ recs) ∧
  (∀ r ∈ (alGet? (getCleanData data st.failed) t).getD [], r ∈ recs)

/-- C1: for every batch on which `check_all_quality` completes, and every
entity type present in the batch, `get_clean_data`'s output and the
failed-records list partition the original record list exactly: every
original record is in exactly one of the two, no record is in both, and
neither side contains records from outside the original list. -/
theorem C1_partition {data : Data} {st : QState} {t : String}
    {recs : List Rec} (h : checkAllQuality data = some st)
    (ht : alGet? data t = some recs) :
    partitionsExactly data st t recs := by
  have hclean : (alGet? (getCleanData data st.failed) t).getD [] =
      recs.filter (fun r => !((alGet? st.failed t).getD []).contains r) := by
    rw [getCleanData_lookup, ht]
    rfl
  obtain ⟨hA, hT, hC, hO, -, -, -⟩ := checkAllQuality_spec h
  refine ⟨?_, ?_, ?_⟩
  · intro r hr
    rw [hclean, List.mem_filter]
    constructor
    · rintro ⟨-, hp⟩ hmem
      rw [← contains_iff_mem] at hmem
      rw [hmem] at hp
      simp at hp
    · intro hnm
      refine ⟨hr, ?_⟩
      have : ((alGet? st.failed t).getD []).contains r = false := by
        by_contra hcc
        exact hnm ((contains_iff_mem _ r).mp (by simpa using hcc))
      rw [this]
      rfl
  · intro r hr
    by_cases h1 : t = "customers"
    · subst h1
      rw [hC, ht] at hr
      simp only [Option.map_some', Option.getD_some] at hr
      rcases dupScan_failed_sub hr with h' | h'
      · exact List.mem_of_mem_filter h'
      · exact h'
    · by_cases h2 : t = "accounts"
      · subst h2
        rw [hA, ht] at hr
        simp only [Option.map_some', Option.getD_some] at hr
        exact List.mem_of_mem_filter hr
      · by_cases h3 : t = "transactions"
        · subst h3
          rw [hT, ht] at hr
          simp only [Option.map_some', Option.getD_some] at hr
          exact List.mem_of_mem_filter hr
        · rw [hO t h1 h2 h3] at hr
          simp at hr
  · intro r hr
    rw [hclean] at hr
    exact List.mem_of_mem_filter hr

/-! ## Claim C9 -/

/-- Entity types other than `customers` / `accounts` / `transactions`
(in particular `devices` and `auth_logs`) pass through unvalidated and
untouched, and only the three checked types ever have a failed-records
entry. -/
def devicesAuthLogsUntouched (data : Data) (st : QState) : Prop :=
  (∀ t recs, alGet? data t = some recs →
    t ≠ "customers" → t ≠ "accounts" → t ≠ "transactions" →
    alGet? (getCleanData data st.failed) t = some recs) ∧
  (∀ t fl, alGet? st.failed t = some fl →
    t = "customers" ∨ t = "accounts" ∨ t = "transactions")

/-- C9: devices and auth_logs records are never validated and never fail:
for any entity type other than the three checked ones, the clean output
is the original record list unchanged, and no such type ever appears in
the failed-records dictionary. -/
theorem C9_frame {data : Data} {st : QState}
    (h : checkAllQuality data = some st) :
    devicesAuthLogsUntouched data st := by
  obtain ⟨-, -, -, hO, -, -, -⟩ := checkAllQuality_spec h
  constructor
  · intro t recs ht h1 h2 h3
    rw [getCleanData_lookup, ht, hO t h1 h2 h3]
    simp only [Option.getD_none, Option.map_some']
    congr 1
    exact List.filter_eq_self.mpr (fun a _ => rfl)
  · intro t fl hfl
    by_cases h1 : t = "customers"
    · exact Or.inl h1
    · by_cases h2 : t = "accounts"
      · exact Or.inr (Or.inl h2)
      · by_cases h3 : t = "transactions"
        · exact Or.inr (Or.inr h3)
        · rw [hO t h1 h2 h3] at hfl
          exact absurd hfl (by simp)

/-! ## Claim C8 -/

theorem clean_customers_nodup {data : Data} {st : QState}
    (h : checkAllQuality data = some st) {cs' : List Rec}
    (hd : alGet? (getCleanData data st.failed) "customers" = some cs') :
    ((poolOf cs').map (fun e => e.2.1)).Nodup := by
  obtain ⟨-, -, hC, -, -, -, -⟩ := checkAllQuality_spec h
  rw [getCleanData_lookup] at hd
  cases hcs : alGet? data "customers" with
  | none => rw [hcs] at hd; exact absurd hd (by simp)
  | some cs =>
    rw [hcs] at hd
    simp only [Option.map_some', Option.some.injEq] at hd
    have hfl : (alGet? st.failed "customers").getD [] =
        (dupScan cs []
          (cs.filter (failsCheck "customers" ["NationalID", "Name", "Username"]))).failed := by
      rw [hC, hcs]; rfl
    rw [List.nodup_iff_count_le_one]
    intro v
    by_contra hcnt
    push_neg at hcnt
    have h2 : 2 ≤ ((poolOf cs').map (fun e => e.2.1)).count v := hcnt
    have hpool : poolOf cs' = (poolOf cs).filter
        (fun e => !((alGet? st.failed "customers").getD []).contains e.2.2) := by
      rw [← hd]
      exact poolOf_filter cs _
    have hsub : List.Sublist ((poolOf cs').map (fun e => e.2.1))
        ((poolOf cs).map (fun e => e.2.1)) := by
      rw [hpool]
      exact (List.filter_sublist _).map _
    have h2' : 2 ≤ ((poolOf cs).map (fun e => e.2.1)).count v :=
      le_trans h2 (hsub.count_le v)
    have hmem : v ∈ (poolOf cs').map (fun e => e.2.1) :=
      List.count_pos_iff.mp (by omega)
    obtain ⟨e, he, hev⟩ := List.mem_map.mp hmem
    have he' : e ∈ poolOf cs ∧
        (!((alGet? st.failed "customers").getD []).contains e.2.2) = true := by
      rw [hpool] at he
      exact List.mem_filter.mp he
    have hfailed : e.2.2 ∈ (dupScan cs []
        (cs.filter (failsCheck "customers" ["NationalID", "Name", "Username"]))).failed :=
      dupScan_guarantee h2' he'.1 hev
    rw [← hfl] at hfailed
    rw [← contains_iff_mem] at hfailed
    rw [hfailed] at he'
    simpa using he'.2

/-- C8: `check_all_quality` followed by `get_clean_data` is idempotent —
running the checker again on its own clean output succeeds and returns
that output unchanged. -/
theorem C8_idempotent {data : Data} {st : QState}
    (h : checkAllQuality data = some st) :
    ∃ st2, checkAllQuality (getCleanData data st.failed) = some st2 ∧
      getCleanData (getCleanData data st.failed) st2.failed =
        getCleanData data st.failed := by
  obtain ⟨st2, hst2, hlookup⟩ := @checkAllQuality_all_clean
    (getCleanData data st.failed)
    (fun rs hrs r hr => by
      obtain ⟨-, -, -, hrc, -⟩ := @clean_customers_mem data st r h
        (by rw [hrs]; exact hr)
      exact hrc)
    (fun rs hrs r hr => by
      obtain ⟨-, -, -, hrc⟩ := @clean_accounts_mem data st r h
        (by rw [hrs]; exact hr)
      exact hrc)
    (fun rs hrs r hr => by
      obtain ⟨-, -, -, hrc⟩ := @clean_transactions_mem data st r h
        (by rw [hrs]; exact hr)
      exact hrc)
    (fun cs hcs => clean_customers_nodup h hcs)
  exact ⟨st2, hst2, getCleanData_id hlookup⟩

/-! ## A batch holding a single customer record -/

theorem recordCheck_customers (fields : List String) (r : Rec) :
    recordCheck "customers" fields r =
      some (nullIssues "customers" fields r) := by
  simp [recordCheck]

/-- Full evaluation of `check_all_quality` on a batch holding exactly one
customer record whose truthy `NationalID` / `Username` values do not
collide with each other: the issues are exactly one NULL-value message
per failing critical field, and the record fails iff there is at least
one such message. -/
theorem singleton_customer_run {r : Rec}
    (h4 : ((poolOf [r]).map (fun e => e.2.1)).Nodup) :
    checkAllQuality [("customers", [r])] = some
      ⟨nullIssues "customers" ["NationalID", "Name", "Username"] r,
       [("customers",
         if (nullIssues "customers" ["NationalID", "Name", "Username"] r).isEmpty
         then [] else [r])]⟩ := by
  have hlkC : alGet? [("customers", [r])] "customers" = some [r] := by
    simp [alGet?, List.find?]
  have hlkA : alGet? [("customers", [r])] "accounts" = none := by
    simp [alGet?, List.find?]
  have hlkT : alGet? [("customers", [r])] "transactions" = none := by
    simp [alGet?, List.find?]
  have hct : checkTypeGo "customers" ["NationalID", "Name", "Username"] [r] [] [] =
      some (nullIssues "customers" ["NationalID", "Name", "Username"] r,
        if (nullIssues "customers" ["NationalID", "Name", "Username"] r).isEmpty
        then [] else [r]) := by
    simp [checkTypeGo, recordCheck_customers]
  have hp1 : phase1 [("customers", [r])] = some
      (nullIssues "customers" ["NationalID", "Name", "Username"] r,
       [("customers",
         if (nullIssues "customers" ["NationalID", "Name", "Username"] r).isEmpty
         then [] else [r])]) := by
    unfold phase1 typePass
    rw [hlkC, hlkA, hlkT]
    dsimp only
    rw [hct]
    simp
  unfold checkAllQuality
  rw [if_neg (by simp), hp1]
  simp only [Option.bind_eq_bind, Option.some_bind]
  rw [hlkC]
  dsimp only
  have hcf : (alGet? [("customers",
      if (nullIssues "customers" ["NationalID", "Name", "Username"] r).isEmpty
      then [] else [r])] "customers").getD [] =
      (if (nullIssues "customers" ["NationalID", "Name", "Username"] r).isEmpty
       then [] else [r]) := by
    simp [alGet?, List.find?]
  rw [hcf]
  have hnoop := dupScan_noop [r]
    (nullIssues "customers" ["NationalID", "Name", "Username"] r)
    (if (nullIssues "customers" ["NationalID", "Name", "Username"] r).isEmpty
     then [] else [r]) h4
  rw [hnoop.1, hnoop.2]
  have hset : alSet [("customers",
      if (nullIssues "customers" ["NationalID", "Name", "Username"] r).isEmpty
      then [] else [r])] "customers"
      (if (nullIssues "customers" ["NationalID", "Name", "Username"] r).isEmpty
       then [] else [r]) =
      [("customers",
        if (nullIssues "customers" ["NationalID", "Name", "Username"] r).isEmpty
        then [] else [r])] := by
    simp [alSet, List.find?]
  rw [hset]
  rfl

/-! ## Claim C3 -/

/-- A customer record whose `NationalID` is the five-digit string
`"12345"` and whose other fields are all present and valid. -/
def exC3cust : Rec := ⟨[("CustomerID", .int 1),
  ("NationalID", .str "12345"), ("Name", .str "Alice"),
  ("Address", .str "12 Main St"), ("Contact", .str "0900000000"),
  ("Username", .str "alice"), ("PasswordHash", .str "deadbeef")]⟩

def exC3data : Data := [("customers", [exC3cust])]

/-- C3 counterexample: the claim says a customer with 5-digit NationalID
`"12345"` must be rejected with a format-specific issue; in fact the run
records no issue at all and the record reaches the clean output. -/
theorem C3_counterexample :
    exC3cust.pyGet "NationalID" = .str "12345" ∧
    "12345".length = 5 ∧
    checkAllQuality exC3data = some ⟨[], [("customers", [])]⟩ ∧
    getCleanData exC3data [("customers", [])] = exC3data := by
  refine ⟨by decide, by decide, ?_, by decide⟩
  have hd : exC3data = [("customers", [exC3cust])] := rfl
  have := @singleton_customer_run exC3cust (by decide)
  rw [hd, this]
  decide

/-- C3 amended: the Field Validator applies no format rule to
`NationalID` — a single-customer batch whose three critical fields are
merely present and non-blank, with no collision between its truthy
`NationalID` and `Username` values, passes with no issue and its record
stays in the clean output, whatever the shape of the `NationalID`
string. -/
theorem C3_amended {r : Rec}
    (h1 : isNullField r "NationalID" = false)
    (h2 : isNullField r "Name" = false)
    (h3 : isNullField r "Username" = false)
    (h4 : ((poolOf [r]).map (fun e => e.2.1)).Nodup) :
    checkAllQuality [("customers", [r])] = some ⟨[], [("customers", [])]⟩ ∧
    getCleanData [("customers", [r])] [("customers", [])] =
      [("customers", [r])] := by
  have hni : nullIssues "customers" ["NationalID", "Name", "Username"] r = [] := by
    simp [nullIssues, h1, h2, h3]
  constructor
  · have := @singleton_customer_run r h4
    rw [hni] at this
    simpa using this
  · unfold getCleanData
    simp [alGet?, List.find?]

/-! ## Claim C7 -/

def exC7cust : Rec := ⟨[("CustomerID", .int 3), ("Username", .str "bob")]⟩

def exC7data : Data := [("customers", [exC7cust])]

/-- C7 counterexample: the claim says a record with several failing
required fields gets exactly one issue string (short-circuit on the
first failing field); in fact a customer missing both `NationalID` and
`Name` produces two issue strings, one per failing field, while the
record itself appears once in the failed list. -/
theorem C7_counterexample :
    isNullField exC7cust "NationalID" = true ∧
    isNullField exC7cust "Name" = true ∧
    checkAllQuality exC7data = some
      ⟨["NULL value in customers.NationalID", "NULL value in customers.Name"],
       [("customers", [exC7cust])]⟩ := by
  refine ⟨by decide, by decide, ?_⟩
  have hd : exC7data = [("customers", [exC7cust])] := rfl
  have := @singleton_customer_run exC7cust (by decide)
  rw [hd, this]
  decide

/-- C7 amended: there is no short-circuit — on a single-customer batch
the recorded issues are exactly one NULL-value message per failing
critical field, in field order, and the record is marked failed once
(iff at least one field fails). -/
theorem C7_amended {r : Rec}
    (h4 : ((poolOf [r]).map (fun e => e.2.1)).Nodup) :
    ∃ st, checkAllQuality [("customers", [r])] = some st ∧
      st.issues = nullIssues "customers" ["NationalID", "Name", "Username"] r ∧
      st.issues.length =
        ((["NationalID", "Name", "Username"].filter
          (fun f => isNullField r f))).length ∧
      (alGet? st.failed "customers").getD [] =
        (if st.issues.isEmpty then [] else [r]) := by
  refine ⟨_, singleton_customer_run h4, rfl, ?_, ?_⟩
  · simp [nullIssues]
  · simp [alGet?, List.find?]

/-! ## Claim C2 -/

def exC2acct : Rec := ⟨[("AccountID", .int 1), ("CustomerID", .int 99),
  ("Balance", .int 100)]⟩

def exC2data : Data := [("accounts", [exC2acct])]

/-- C2 counterexample: the claim says a record whose foreign key resolves
neither in the batch nor in the store never reaches the clean output; in
fact an account referencing `CustomerID` 99, with no customer collection
in the batch at all (and the checker never consulting any store), passes
with no issue and reaches the clean output. -/
theorem C2_counterexample :
    exC2acct.pyGet "CustomerID" = .int 99 ∧
    alGet? exC2data "customers" = none ∧
    checkAllQuality exC2data = some ⟨[], [("accounts", [])]⟩ ∧
    exC2acct ∈ (alGet? (getCleanData exC2data [("accounts", [])])
      "accounts").getD [] := by
  decide

/-- Foreign-key fields of clean records are only guaranteed present and
non-blank; no resolution against the batch or a store is performed. -/
def fkFieldsOnlyPresence (data : Data) (st : QState) : Prop :=
  (∀ r ∈ (alGet? (getCleanData data st.failed) "accounts").getD [],
    isNullField r "CustomerID" = false) ∧
  (∀ r ∈ (alGet? (getCleanData data st.failed) "transactions").getD [],
    isNullField r "FromAccountID" = false ∧
      isNullField r "ToAccountID" = false)

/-- C2 amended: the quality gate checks foreign-key fields only for
presence/non-blankness (accounts: `CustomerID`; transactions:
`FromAccountID`, `ToAccountID`); it never resolves their values, so a
clean record's foreign keys are present but possibly dangling. -/
theorem C2_amended {data : Data} {st : QState}
    (h : checkAllQuality data = some st) :
    fkFieldsOnlyPresence data st := by
  constructor
  · intro r hr
    obtain ⟨rs, -, -, hrc⟩ := clean_accounts_mem h hr
    exact recordCheck_empty_null hrc "CustomerID" (by simp)
  · intro r hr
    obtain ⟨rs, -, -, hrc⟩ := clean_transactions_mem h hr
    exact ⟨recordCheck_empty_null hrc "FromAccountID" (by simp),
      recordCheck_empty_null hrc "ToAccountID" (by simp)⟩

/-! ## Quality-side witnesses -/

def wCust : Rec := ⟨[("CustomerID", .int 1),
  ("NationalID", .str "123456789012"), ("Name", .str "Alice"),
  ("Username", .str "alice")]⟩

def wAcct : Rec := ⟨[("AccountID", .int 1), ("CustomerID", .int 1),
  ("Balance", .int 5000)]⟩

def wTxn : Rec := ⟨[("TransactionID", .int 1), ("FromAccountID", .int 1),
  ("ToAccountID", .int 2), ("Amount", .int 100)]⟩

def wDev : Rec := ⟨[("DeviceID", .int 1)]⟩

def wLog : Rec := ⟨[("AuthID", .int 1)]⟩

def wData : Data := [("customers", [wCust]), ("devices", [wDev]),
  ("accounts", [wAcct]), ("transactions", [wTxn]), ("auth_logs", [wLog])]

def wSt : QState :=
  ⟨[], [("customers", []), ("accounts", []), ("transactions", [])]⟩

theorem C1_partition_witness :
    checkAllQuality wData = some wSt ∧
    alGet? wData "customers" = some [wCust] ∧
    partitionsExactly wData wSt "customers" [wCust] :=
  ⟨by decide, by decide, C1_partition (by decide) (by decide)⟩

theorem C9_frame_witness :
    checkAllQuality wData = some wSt ∧ devicesAuthLogsUntouched wData wSt :=
  ⟨by decide, C9_frame (by decide)⟩

theorem C8_idempotent_witness :
    checkAllQuality wData = some wSt ∧
    ∃ st2, checkAllQuality (getCleanData wData wSt.failed) = some st2 ∧
      getCleanData (getCleanData wData wSt.failed) st2.failed =
        getCleanData wData wSt.failed :=
  ⟨by decide, C8_idempotent (by decide)⟩

theorem C2_amended_witness :
    checkAllQuality wData = some wSt ∧ fkFieldsOnlyPresence wData wSt :=
  ⟨by decide, C2_amended (by decide)⟩

theorem C3_amended_witness :
    isNullField exC3cust "NationalID" = false ∧
    exC3cust.pyGet "NationalID" = .str "12345" ∧
    (checkAllQuality [("customers", [exC3cust])] =
        some ⟨[], [("customers", [])]⟩ ∧
      getCleanData [("customers", [exC3cust])] [("customers", [])] =
        [("customers", [exC3cust])]) :=
  ⟨by decide, by decide,
    C3_amended (by decide) (by decide) (by decide) (by decide)⟩

theorem C7_amended_witness :
    ∃ st, checkAllQuality [("customers", [exC7cust])] = some st ∧
      st.issues = nullIssues "customers" ["NationalID", "Name", "Username"] exC7cust ∧
      st.issues.length =
        ((["NationalID", "Name", "Username"].filter
          (fun f => isNullField exC7cust f))).length ∧
      (alGet? st.failed "customers").getD [] =
        (if st.issues.isEmpty then [] else [exC7cust]) :=
  C7_amended (by decide)

/-! ## Characterization of the risk monitor's transaction loop -/

/-- The per-transaction effects of a batch, `none` as soon as one
transaction raises. -/
def effList (ctx : RCtx) :
    List Rec → Option (List (List Violation × Option ((Value × String) × Int)))
  | [] => some []
  | t :: ts =>
    (txnEffect ctx t).bind (fun e => (effList ctx ts).map (fun es => e :: es))

theorem txnLoop_char (ctx : RCtx) :
    ∀ (ts : List Rec) (st : RiskState),
      txnLoop ctx ts st =
        (effList ctx ts).map (fun effs =>
          ⟨st.violations ++ (effs.map Prod.fst).flatten,
           effs.foldl (fun m e => applyContrib m e.2) st.daily⟩)
  | [], st => by simp [txnLoop, effList]
  | t :: ts, st => by
    unfold txnLoop effList
    cases he : txnEffect ctx t with
    | none => rfl
    | some e =>
      obtain ⟨vs, c⟩ := e
      dsimp only
      rw [txnLoop_char ctx ts ⟨st.violations ++ vs, applyContrib st.daily c⟩]
      cases hes : effList ctx ts with
      | none => rfl
      | some effs => simp

theorem checkAllRisks_char {d : RiskData} {vs : List Violation} :
    checkAllRisks d = some vs ↔
      ∃ cm dm am effs,
        buildMap "CustomerID" d.customers = some cm ∧
        buildMap "DeviceID" d.devices = some dm ∧
        buildMap "AccountID" d.accounts = some am ∧
        effList ⟨d.devices, am, buildAuthMap d.authLogs⟩ d.transactions = some effs ∧
        vs = (effs.map Prod.fst).flatten
          ++ r4Violations (effs.foldl (fun m e => applyContrib m e.2) [])
          ++ r5Violations (buildFailedAuths d.authLogs) := by
  unfold checkAllRisks
  constructor
  · intro h
    cases hcm : buildMap "CustomerID" d.customers with
    | none => rw [hcm] at h; simp at h
    | some cm =>
      rw [hcm] at h
      simp only [Option.bind_eq_bind, Option.some_bind] at h
      cases hdm : buildMap "DeviceID" d.devices with
      | none => rw [hdm] at h; simp at h
      | some dm =>
        rw [hdm] at h
        simp only [Option.some_bind] at h
        cases ham : buildMap "AccountID" d.accounts with
        | none => rw [ham] at h; simp at h
        | some am =>
          rw [ham] at h
          simp only [Option.some_bind] at h
          rw [txnLoop_char] at h
          cases he : effList ⟨d.devices, am, buildAuthMap d.authLogs⟩ d.transactions with
          | none => rw [he] at h; simp at h
          | some effs =>
            rw [he] at h
            simp only [Option.map_some', Option.some_bind, Option.pure_def,
              Option.some.injEq] at h
            exact ⟨cm, dm, am, effs, rfl, rfl, rfl, he, by
              rw [← h]; simp⟩
  · rintro ⟨cm, dm, am, effs, hcm, hdm, ham, he, hvs⟩
    rw [hcm, hdm, ham]
    simp only [Option.bind_eq_bind, Option.some_bind]
    rw [txnLoop_char, he]
    simp only [Option.map_some', Option.some_bind, Option.pure_def,
      Option.some.injEq]
    rw [hvs]
    simp

/-- Membership in the effect list: each transaction's effect is present. -/
theorem effList_mem {ctx : RCtx} :
    ∀ {ts : List Rec} {effs : List (List Violation × Option ((Value × String) × Int))},
      effList ctx ts = some effs →
      ∀ t ∈ ts, ∃ e ∈ effs, txnEffect ctx t = some e
  | [], effs, h, t, ht => by simp at ht
  | t0 :: ts, effs, h, t, ht => by
    unfold effList at h
    cases he : txnEffect ctx t0 with
    | none => rw [he] at h; simp at h
    | some e =>
      rw [he] at h
      cases hes : effList ctx ts with
      | none => rw [hes] at h; simp at h
      | some es =>
        rw [hes] at h
        simp only [Option.some_bind, Option.map_some', Option.some.injEq] at h
        subst h
        rcases List.mem_cons.mp ht with h0 | h1
        · exact ⟨e, List.mem_cons_self e es, h0 ▸ he⟩
        · obtain ⟨e', he', hte⟩ := effList_mem hes t h1
          exact ⟨e', List.mem_cons_of_mem e he', hte⟩

/-- Every effect in the list is some transaction's. -/
theorem effList_mem_rev {ctx : RCtx} :
    ∀ {ts : List Rec} {effs : List (List Violation × Option ((Value × String) × Int))},
      effList ctx ts = some effs →
      ∀ e ∈ effs, ∃ t ∈ ts, txnEffect ctx t = some e
  | [], effs, h, e, he => by
    unfold effList at h
    cases h
    simp at he
  | t0 :: ts, effs, h, e, he => by
    unfold effList at h
    cases he0 : txnEffect ctx t0 with
    | none => rw [he0] at h; simp at h
    | some e0 =>
      rw [he0] at h
      cases hes : effList ctx ts with
      | none => rw [hes] at h; simp at h
      | some es =>
        rw [hes] at h
        simp only [Option.some_bind, Option.map_some', Option.some.injEq] at h
        subst h
        rcases List.mem_cons.mp he with h0 | h1
        · exact ⟨t0, List.mem_cons_self t0 ts, h0 ▸ he0⟩
        · obtain ⟨t', ht', hte⟩ := effList_mem_rev hes e h1
          exact ⟨t', List.mem_cons_of_mem t0 ht', hte⟩

/-- The rule codes a single transaction can emit. -/
theorem txnEffect_rules {ctx : RCtx} {txn : Rec}
    {e : List Violation × Option ((Value × String) × Int)}
    (h : txnEffect ctx txn = some e) :
    ∀ v ∈ e.1, v.rule = "RULE_001" ∨ v.rule = "RULE_002" ∨ v.rule = "RULE_003" := by
  unfold txnEffect at h
  cases ha : (txn.pyGetD "Amount" (.int 0)).toNum with
  | none => rw [ha] at h; simp at h
  | some amount =>
    rw [ha] at h
    simp only [Option.some_bind] at h
    cases hb : ((fromAccountOf ctx.accountMap txn).pyGetD "Balance" (.int 0)).cmpNum with
    | none => rw [hb] at h; simp at h
    | some bal =>
      rw [hb] at h
      simp only [Option.some_bind] at h
      cases hco : contribOf txn (txnCustomerOf ctx.accountMap txn) amount with
      | none => rw [hco] at h; simp at h
      | some c =>
        rw [hco] at h
        simp only [Option.map_some', Option.some.injEq] at h
        subst h
        intro v hv
        simp only [List.mem_append] at hv
        rcases hv with (hv | hv) | hv
        · left
          unfold r1Violation at hv
          by_cases hc : (10000000 < amount &&
            !strongAuth (authMethodOf ctx.authMap (txnCustomerOf ctx.accountMap txn))) = true
          · rw [if_pos hc] at hv
            have : v = ⟨"RULE_001", "HIGH", some (txn.pyGet "TransactionID"),
                some (txnCustomerOf ctx.accountMap txn), none, none⟩ := by simpa using hv
            rw [this]
          · rw [if_neg hc] at hv; simp at hv
        · right; left
          unfold r2Violation at hv
          by_cases hc : (txnCustomerOf ctx.accountMap txn).truthy
          · rw [if_pos hc] at hv
            by_cases hc2 : (!(unverifiedDevices ctx.devices
                (txnCustomerOf ctx.accountMap txn)).isEmpty && 1000000 < amount) = true
            · rw [if_pos hc2] at hv
              have : v.rule = "RULE_002" := by
                have := (by simpa using hv :
                  v = ⟨"RULE_002", "MEDIUM", some (txn.pyGet "TransactionID"),
                    some (txnCustomerOf ctx.accountMap txn),
                    some (((unverifiedDevices ctx.devices
                      (txnCustomerOf ctx.accountMap txn)).headD ⟨[]⟩).pyGet "DeviceID"),
                    none⟩)
                rw [this]
              exact this
            · rw [if_neg hc2] at hv; simp at hv
          · rw [if_neg hc] at hv; simp at hv
        · right; right
          unfold r3Violation at hv
          by_cases hc : bal < amount
          · rw [if_pos hc] at hv
            have : v = ⟨"RULE_003", "HIGH", some (txn.pyGet "TransactionID"),
                some (txnCustomerOf ctx.accountMap txn), none, none⟩ := by simpa using hv
            rw [this]
          · rw [if_neg hc] at hv; simp at hv

/-- Rule codes appearing in the Rule 4 and Rule 5 sections. -/
theorem r4Violations_rules {daily : List ((Value × String) × Int)} :
    ∀ v ∈ r4Violations daily, v.rule = "RULE_004" := by
  intro v hv
  unfold r4Violations at hv
  obtain ⟨p, -, hp⟩ := List.mem_filterMap.mp hv
  by_cases hc : 50000000 < p.2
  · rw [if_pos hc] at hp
    cases hp
    rfl
  · rw [if_neg hc] at hp; simp at hp

theorem r5Violations_rules {fails : List (Value × Int)} :
    ∀ v ∈ r5Violations fails, v.rule = "RULE_005" := by
  intro v hv
  unfold r5Violations at hv
  obtain ⟨p, -, hp⟩ := List.mem_filterMap.mp hv
  by_cases hc : 3 ≤ p.2
  · rw [if_pos hc] at hp
    cases hp
    rfl
  · rw [if_neg hc] at hp; simp at hp

/-- Destructuring a successful transaction effect into its rule parts. -/
theorem txnEffect_parts {ctx : RCtx} {txn : Rec}
    {e : List Violation × Option ((Value × String) × Int)}
    (h : txnEffect ctx txn = some e) :
    ∃ a bal c,
      (txn.pyGetD "Amount" (.int 0)).toNum = some a ∧
      ((fromAccountOf ctx.accountMap txn).pyGetD "Balance" (.int 0)).cmpNum = some bal ∧
      contribOf txn (txnCustomerOf ctx.accountMap txn) a = some c ∧
      e = (r1Violation ctx txn a ++ r2Violation ctx txn a
        ++ r3Violation ctx txn bal a, c) := by
  unfold txnEffect at h
  cases ha : (txn.pyGetD "Amount" (.int 0)).toNum with
  | none => rw [ha] at h; simp at h
  | some a =>
    rw [ha] at h
    simp only [Option.some_bind] at h
    cases hb : ((fromAccountOf ctx.accountMap txn).pyGetD "Balance" (.int 0)).cmpNum with
    | none => rw [hb] at h; simp at h
    | some bal =>
      rw [hb] at h
      simp only [Option.some_bind] at h
      cases hco : contribOf txn (txnCustomerOf ctx.accountMap txn) a with
      | none => rw [hco] at h; simp at h
      | some c =>
        rw [hco] at h
        simp only [Option.map_some', Option.some.injEq] at h
        exact ⟨a, bal, c, rfl, rfl, hco, h.symm⟩

/-- A violation emitted by some transaction's effect is in the final
violation list. -/
theorem mem_vs_of_mem_eff {effs : List (List Violation × Option ((Value × String) × Int))}
    {e : List Violation × Option ((Value × String) × Int)} (he : e ∈ effs)
    {v : Violation} (hv : v ∈ e.1) {vs : List Violation}
    {x y : List Violation}
    (hvs : vs = (effs.map Prod.fst).flatten ++ x ++ y) : v ∈ vs := by
  rw [hvs]
  refine List.mem_append_left _ (List.mem_append_left _ ?_)
  exact List.mem_flatten.mpr ⟨e.1, List.mem_map_of_mem Prod.fst he, hv⟩

theorem alGet?_mem {κ α : Type} [DecidableEq κ] {m : List (κ × α)} {k : κ}
    {v : α} (h : alGet? m k = some v) : (k, v) ∈ m := by
  unfold alGet? at h
  cases hf : m.find? (fun p => p.1 == k) with
  | none => rw [hf] at h; simp at h
  | some p =>
    rw [hf] at h
    have hp := List.find?_some hf
    have hmem := List.mem_of_find?_eq_some hf
    have hk : p.1 = k := by simpa using hp
    have hv : p.2 = v := by simpa using h
    rw [← hk, ← hv]
    exact hmem

theorem alSet_keys {κ α : Type} [DecidableEq κ] {m : List (κ × α)}
    {P : κ → Prop} (hm : ∀ p ∈ m, P p.1) {k : κ} (hk : P k) (v : α) :
    ∀ p ∈ alSet m k v, P p.1 := by
  intro p hp
  unfold alSet at hp
  by_cases hf : (m.find? (fun q => q.1 == k)).isSome
  · rw [if_pos hf] at hp
    obtain ⟨q, hq, hqe⟩ := List.mem_map.mp hp
    rw [← hqe]
    exact hm q hq
  · rw [if_neg hf] at hp
    rcases List.mem_append.mp hp with h' | h'
    · exact hm p h'
    · have : p = (k, v) := by simpa using h'
      rw [this]
      exact hk

/-- `auth_map` only holds truthy customer keys. -/
theorem buildAuthMap_truthy_keys (logs : List Rec) :
    ∀ p ∈ buildAuthMap logs, p.1.truthy = true := by
  unfold buildAuthMap
  suffices hgen : ∀ (ls : List Rec) (m : List (Value × Rec)),
      (∀ p ∈ m, p.1.truthy = true) →
      ∀ p ∈ ls.foldl (fun m a =>
        if (a.pyGet "CustomerID").truthy && (a.pyGet "AuthStatus" == .str "SUCCESS")
        then alSet m (a.pyGet "CustomerID") a else m) m, p.1.truthy = true by
    exact hgen logs [] (by simp)
  intro ls
  induction ls with
  | nil => intro m hm p hp; exact hm p hp
  | cons a as ih =>
    intro m hm p hp
    rw [List.foldl_cons] at hp
    by_cases hc : ((a.pyGet "CustomerID").truthy
        && (a.pyGet "AuthStatus" == .str "SUCCESS")) = true
    · rw [if_pos hc] at hp
      have hk : (a.pyGet "CustomerID").truthy = true := by
        simp only [Bool.and_eq_true] at hc
        exact hc.1
      exact ih _ (@alSet_keys Value Rec _ m (fun k => k.truthy = true) hm
        (a.pyGet "CustomerID") hk a) p hp
    · rw [if_neg hc] at hp
      exact ih m hm p hp

/-! ## Claim C10 -/

/-- C10: a transaction whose `FromAccountID` resolves to no account in
the batch degrades exactly as claimed — its balance defaults to 0, so a
Rule 3 alert fires whenever the amount is positive; it is still checked
for Rule 1 with the empty authentication method, so any amount above
10M VND fires a Rule 1 alert; its Rule 2 check is skipped entirely; and
it contributes nothing to the per-customer daily totals. -/
theorem C10_degraded {d : RiskData} {vs : List Violation}
    {am : List (Value × Rec)} {txn : Rec} {a : Int}
    (h : checkAllRisks d = some vs)
    (ham : buildMap "AccountID" d.accounts = some am)
    (htxn : txn ∈ d.transactions)
    (hmiss : alGet? am (txn.pyGet "FromAccountID") = none)
    (ha : (txn.pyGetD "Amount" (.int 0)).toNum = some a) :
    (0 < a → ∃ v ∈ vs, v.rule = "RULE_003" ∧
      v.txn = some (txn.pyGet "TransactionID") ∧ v.cust = some .null) ∧
    (10000000 < a → ∃ v ∈ vs, v.rule = "RULE_001" ∧
      v.txn = some (txn.pyGet "TransactionID") ∧ v.cust = some .null) ∧
    r2Violation ⟨d.devices, am, buildAuthMap d.authLogs⟩ txn a = [] ∧
    contribOf txn (txnCustomerOf am txn) a = some none := by
  obtain ⟨cm, dm, am', effs, hcm, hdm, ham', heff, hvs⟩ := checkAllRisks_char.mp h
  rw [ham] at ham'
  cases ham'
  have hfa : fromAccountOf am txn = ⟨[]⟩ := by
    unfold fromAccountOf
    rw [hmiss]
    rfl
  have hcid : txnCustomerOf am txn = .null := by
    unfold txnCustomerOf
    rw [hfa]
    rfl
  have hr2 : r2Violation ⟨d.devices, am, buildAuthMap d.authLogs⟩ txn a = [] := by
    unfold r2Violation
    rw [show txnCustomerOf (⟨d.devices, am, buildAuthMap d.authLogs⟩ : RCtx).accountMap txn
        = Value.null from hcid]
    rfl
  have hcontrib : contribOf txn (txnCustomerOf am txn) a = some none := by
    unfold contribOf
    rw [hcid]
    rfl
  have hauth : authMethodOf (buildAuthMap d.authLogs) Value.null = .str "" := by
    unfold authMethodOf
    cases hl : alGet? (buildAuthMap d.authLogs) Value.null with
    | none => rfl
    | some r =>
      have := buildAuthMap_truthy_keys d.authLogs _ (alGet?_mem hl)
      simp [Value.truthy] at this
  have heffect : txnEffect ⟨d.devices, am, buildAuthMap d.authLogs⟩ txn =
      some ((if 10000000 < a then
          [⟨"RULE_001", "HIGH", some (txn.pyGet "TransactionID"), some .null, none, none⟩]
        else []) ++ [] ++
        (if 0 < a then
          [⟨"RULE_003", "HIGH", some (txn.pyGet "TransactionID"), some .null, none, none⟩]
        else []), none) := by
    unfold txnEffect
    rw [ha]
    simp only [Option.some_bind]
    have hbal : ((fromAccountOf (⟨d.devices, am, buildAuthMap d.authLogs⟩ : RCtx).accountMap
        txn).pyGetD "Balance" (.int 0)).cmpNum = some 0 := by
      show ((fromAccountOf am txn).pyGetD "Balance" (.int 0)).cmpNum = some 0
      rw [hfa]
      rfl
    rw [hbal]
    simp only [Option.some_bind]
    rw [show contribOf txn (txnCustomerOf
        (⟨d.devices, am, buildAuthMap d.authLogs⟩ : RCtx).accountMap txn) a = some none
      from hcontrib]
    simp only [Option.map_some', Option.some.injEq]
    congr 1
    · unfold r1Violation
      rw [show txnCustomerOf (⟨d.devices, am, buildAuthMap d.authLogs⟩ : RCtx).accountMap txn
          = Value.null from hcid]
      rw [show authMethodOf (⟨d.devices, am, buildAuthMap d.authLogs⟩ : RCtx).authMap Value.null
          = .str "" from hauth]
      rw [hr2]
      unfold r3Violation
      rw [show txnCustomerOf (⟨d.devices, am, buildAuthMap d.authLogs⟩ : RCtx).accountMap txn
          = Value.null from hcid]
      by_cases h10 : 10000000 < a <;> by_cases h0 : 0 < a <;>
        simp [h10, h0, strongAuth]
  obtain ⟨e, he, hte⟩ := effList_mem heff txn htxn
  rw [heffect] at hte
  have he1 : e = ((if 10000000 < a then
      [⟨"RULE_001", "HIGH", some (txn.pyGet "TransactionID"), some .null, none, none⟩]
    else []) ++ [] ++
    (if 0 < a then
      [⟨"RULE_003", "HIGH", some (txn.pyGet "TransactionID"), some .null, none, none⟩]
    else []), none) := by
    cases hte
    rfl
  refine ⟨?_, ?_, hr2, hcontrib⟩
  · intro h0
    refine ⟨⟨"RULE_003", "HIGH", some (txn.pyGet "TransactionID"), some .null, none, none⟩,
      mem_vs_of_mem_eff he ?_ hvs, rfl, rfl, rfl⟩
    rw [he1]
    simp [h0]
  · intro h10
    refine ⟨⟨"RULE_001", "HIGH", some (txn.pyGet "TransactionID"), some .null, none, none⟩,
      mem_vs_of_mem_eff he ?_ hvs, rfl, rfl, rfl⟩
    rw [he1]
    simp [h10]

/-! ## Claim C5 -/

/-- The authentication log the monitor's `auth_map` ends up holding for
a customer: the *last* log in batch order with a truthy matching
`CustomerID` and `AuthStatus == 'SUCCESS'` — device and timestamp play
no role. -/
def lastSuccessAuth (logs : List Rec) (cid : Value) : Option Rec :=
  logs.reverse.find? (fun a => cid.truthy && (a.pyGet "CustomerID" == cid)
    && (a.pyGet "AuthStatus" == .str "SUCCESS"))

theorem buildAuthMap_from (cid : Value) :
    ∀ (logs : List Rec) (m : List (Value × Rec)),
      alGet? (logs.foldl (fun m a =>
        if (a.pyGet "CustomerID").truthy && (a.pyGet "AuthStatus" == .str "SUCCESS")
        then alSet m (a.pyGet "CustomerID") a else m) m) cid =
      match lastSuccessAuth logs cid with
      | some a => some a
      | none => alGet? m cid
  | [], m => by simp [lastSuccessAuth]
  | a :: logs, m => by
    rw [List.foldl_cons]
    have hrev : (a :: logs).reverse = logs.reverse ++ [a] := by simp
    have hfind : lastSuccessAuth (a :: logs) cid =
        match lastSuccessAuth logs cid with
        | some b => some b
        | none =>
          if cid.truthy && (a.pyGet "CustomerID" == cid)
              && (a.pyGet "AuthStatus" == .str "SUCCESS")
          then some a else none := by
      unfold lastSuccessAuth
      rw [hrev, List.find?_append]
      cases hl : logs.reverse.find? (fun b => cid.truthy && (b.pyGet "CustomerID" == cid)
          && (b.pyGet "AuthStatus" == .str "SUCCESS")) with
      | some b => rfl
      | none =>
        simp only [Option.none_or]
        rw [List.find?_singleton]
    rw [hfind]
    rw [buildAuthMap_from cid logs _]
    cases hl : lastSuccessAuth logs cid with
    | some b => rfl
    | none =>
      dsimp only
      by_cases hc : (cid.truthy && (a.pyGet "CustomerID" == cid)
          && (a.pyGet "AuthStatus" == .str "SUCCESS")) = true
      · rw [if_pos hc]
        have hcid : a.pyGet "CustomerID" = cid := by
          simp only [Bool.and_eq_true, beq_iff_eq] at hc
          exact hc.1.2
        have hguard : ((a.pyGet "CustomerID").truthy
            && (a.pyGet "AuthStatus" == .str "SUCCESS")) = true := by
          simp only [Bool.and_eq_true, beq_iff_eq] at hc ⊢
          rw [hcid]
          exact ⟨hc.1.1, hc.2⟩
        rw [if_pos hguard, hcid, alSet_get_same]
      · rw [if_neg hc]
        by_cases hguard : ((a.pyGet "CustomerID").truthy
            && (a.pyGet "AuthStatus" == .str "SUCCESS")) = true
        · rw [if_pos hguard]
          have hne : a.pyGet "CustomerID" ≠ cid := by
            intro heq
            apply hc
            simp only [Bool.and_eq_true, beq_iff_eq] at hguard ⊢
            exact ⟨⟨heq ▸ hguard.1, heq⟩, hguard.2⟩
          rw [alSet_get_other _ _ _ _ hne]
        · rw [if_neg hguard]

/-- The incremental `auth_map` lookup is the declarative last-success
log. -/
theorem buildAuthMap_eq_lastSuccess (logs : List Rec) (cid : Value) :
    alGet? (buildAuthMap logs) cid =
      match lastSuccessAuth logs cid with
      | some a => some a
      | none => none := by
  unfold buildAuthMap
  rw [buildAuthMap_from cid logs []]
  cases lastSuccessAuth logs cid <;> rfl

theorem authMethodOf_lastSuccess (logs : List Rec) (cid : Value) :
    authMethodOf (buildAuthMap logs) cid =
      ((lastSuccessAuth logs cid).getD ⟨[]⟩).pyGetD "AuthMethod" (.str "") := by
  unfold authMethodOf
  rw [buildAuthMap_eq_lastSuccess]
  cases lastSuccessAuth logs cid <;> rfl

/-- Rule 1 violations characterized: soundness (every RULE_001 violation
comes from a high-value transaction whose originating customer's last
successful auth-log entry, in batch order and ignoring device and
timestamp, is not strong) and completeness (every such transaction emits
one). -/
def r1Characterized (d : RiskData) (am : List (Value × Rec))
    (vs : List Violation) : Prop :=
  (∀ v ∈ vs, v.rule = "RULE_001" →
    ∃ txn ∈ d.transactions, ∃ a : Int,
      (txn.pyGetD "Amount" (.int 0)).toNum = some a ∧ 10000000 < a ∧
      strongAuth (((lastSuccessAuth d.authLogs
        (txnCustomerOf am txn)).getD ⟨[]⟩).pyGetD "AuthMethod" (.str "")) = false ∧
      v.txn = some (txn.pyGet "TransactionID") ∧
      v.cust = some (txnCustomerOf am txn)) ∧
  (∀ txn ∈ d.transactions, ∀ a : Int,
    (txn.pyGetD "Amount" (.int 0)).toNum = some a → 10000000 < a →
    strongAuth (((lastSuccessAuth d.authLogs
      (txnCustomerOf am txn)).getD ⟨[]⟩).pyGetD "AuthMethod" (.str "")) = false →
    ∃ v ∈ vs, v.rule = "RULE_001" ∧
      v.txn = some (txn.pyGet "TransactionID") ∧
      v.cust = some (txnCustomerOf am txn))

/-- C5 amended: the Rule 1 lookup is keyed by the originating customer
alone — the last successful auth log in batch order, regardless of the
transaction's device or of timestamps — and a HIGH RULE_001 alert is
emitted exactly for high-value transactions whose looked-up method
(defaulting to the empty string) is not Biometric/OTP. -/
theorem C5_amended {d : RiskData} {vs : List Violation}
    {am : List (Value × Rec)} (h : checkAllRisks d = some vs)
    (ham : buildMap "AccountID" d.accounts = some am) :
    r1Characterized d am vs := by
  obtain ⟨cm, dm, am', effs, hcm, hdm, ham', heff, hvs⟩ := checkAllRisks_char.mp h
  rw [ham] at ham'
  cases ham'
  constructor
  · intro v hv hrule
    rw [hvs] at hv
    rcases List.mem_append.mp hv with hv' | hv'
    · rcases List.mem_append.mp hv' with hv'' | hv''
      · obtain ⟨l, hl, hvl⟩ := List.mem_flatten.mp hv''
        obtain ⟨e, he, hel⟩ := List.mem_map.mp hl
        obtain ⟨txn, htxn, hte⟩ := effList_mem_rev heff e he
        obtain ⟨a, bal, c, ha, hb, hco, hee⟩ := txnEffect_parts hte
        refine ⟨txn, htxn, a, ha, ?_⟩
        rw [hee] at hel
        rw [← hel] at hvl
        simp only [List.mem_append] at hvl
        rcases hvl with (hv1 | hv2) | hv3
        · unfold r1Violation at hv1
          by_cases hc : (10000000 < a && !strongAuth (authMethodOf
              (buildAuthMap d.authLogs) (txnCustomerOf am txn))) = true
          · rw [if_pos hc] at hv1
            have hveq : v = ⟨"RULE_001", "HIGH", some (txn.pyGet "TransactionID"),
                some (txnCustomerOf am txn), none, none⟩ := by simpa using hv1
            simp only [Bool.and_eq_true, Bool.not_eq_true', decide_eq_true_eq] at hc
            refine ⟨hc.1, ?_, by rw [hveq], by rw [hveq]⟩
            rw [← authMethodOf_lastSuccess]
            exact hc.2
          · rw [if_neg hc] at hv1; simp at hv1
        · exfalso
          unfold r2Violation at hv2
          by_cases hc : (txnCustomerOf am txn).truthy
          · rw [if_pos hc] at hv2
            by_cases hc2 : (!(unverifiedDevices d.devices
                (txnCustomerOf am txn)).isEmpty && 1000000 < a) = true
            · rw [if_pos hc2] at hv2
              have hveq := (by simpa using hv2 :
                v = ⟨"RULE_002", "MEDIUM", some (txn.pyGet "TransactionID"),
                  some (txnCustomerOf am txn),
                  some (((unverifiedDevices d.devices
                    (txnCustomerOf am txn)).headD ⟨[]⟩).pyGet "DeviceID"), none⟩)
              rw [hveq] at hrule
              simp at hrule
            · rw [if_neg hc2] at hv2; simp at hv2
          · rw [if_neg hc] at hv2; simp at hv2
        · exfalso
          unfold r3Violation at hv3
          by_cases hc : bal < a
          · rw [if_pos hc] at hv3
            have hveq := (by simpa using hv3 :
              v = ⟨"RULE_003", "HIGH", some (txn.pyGet "TransactionID"),
                some (txnCustomerOf am txn), none, none⟩)
            rw [hveq] at hrule
            simp at hrule
          · rw [if_neg hc] at hv3; simp at hv3
      · exfalso
        have := r4Violations_rules v hv''
        rw [this] at hrule
        simp at hrule
    · exfalso
      have := r5Violations_rules v hv'
      rw [this] at hrule
      simp at hrule
  · intro txn htxn a ha h10 hweak
    obtain ⟨e, he, hte⟩ := effList_mem heff txn htxn
    obtain ⟨a', bal, c, ha', hb, hco, hee⟩ := txnEffect_parts hte
    rw [ha] at ha'
    cases ha'
    have hcond : (10000000 < a && !strongAuth (authMethodOf
        (buildAuthMap d.authLogs) (txnCustomerOf am txn))) = true := by
      rw [authMethodOf_lastSuccess]
      simp only [Bool.and_eq_true, Bool.not_eq_true', decide_eq_true_eq]
      exact ⟨h10, hweak⟩
    refine ⟨⟨"RULE_001", "HIGH", some (txn.pyGet "TransactionID"),
        some (txnCustomerOf am txn), none, none⟩,
      mem_vs_of_mem_eff he ?_ hvs, rfl, rfl, rfl⟩
    rw [hee]
    simp only [List.mem_append]
    left; left
    unfold r1Violation
    rw [if_pos hcond]
    simp

/-! ## Claim C6 -/

/-- Rule 2 violations characterized: a MEDIUM RULE_002 alert is emitted
exactly for transactions whose resolved originating customer owns at
least one unverified device in the batch AND whose amount exceeds
1M VND; the transaction's own `DeviceID` is never consulted, and the
logged device is the customer's first unverified one. -/
def r2Characterized (d : RiskData) (am : List (Value × Rec))
    (vs : List Violation) : Prop :=
  (∀ v ∈ vs, v.rule = "RULE_002" →
    ∃ txn ∈ d.transactions, ∃ a : Int,
      (txn.pyGetD "Amount" (.int 0)).toNum = some a ∧
      (txnCustomerOf am txn).truthy = true ∧
      (unverifiedDevices d.devices (txnCustomerOf am txn)).isEmpty = false ∧
      1000000 < a ∧
      v.txn = some (txn.pyGet "TransactionID") ∧
      v.cust = some (txnCustomerOf am txn) ∧
      v.device = some (((unverifiedDevices d.devices
        (txnCustomerOf am txn)).headD ⟨[]⟩).pyGet "DeviceID")) ∧
  (∀ txn ∈ d.transactions, ∀ a : Int,
    (txn.pyGetD "Amount" (.int 0)).toNum = some a →
    (txnCustomerOf am txn).truthy = true →
    (unverifiedDevices d.devices (txnCustomerOf am txn)).isEmpty = false →
    1000000 < a →
    ∃ v ∈ vs, v.rule = "RULE_002" ∧
      v.txn = some (txn.pyGet "TransactionID") ∧
      v.cust = some (txnCustomerOf am txn))

/-- C6 amended: Rule 2 fires iff the transaction's originating customer
(via `FromAccountID`) owns an unverified device in the batch and the
amount exceeds 1,000,000 VND; there is no per-transaction device check,
no store lookup, and no amount-free triggering. -/
theorem C6_amended {d : RiskData} {vs : List Violation}
    {am : List (Value × Rec)} (h : checkAllRisks d = some vs)
    (ham : buildMap "AccountID" d.accounts = some am) :
    r2Characterized d am vs := by
  obtain ⟨cm, dm, am', effs, hcm, hdm, ham', heff, hvs⟩ := checkAllRisks_char.mp h
  rw [ham] at ham'
  cases ham'
  constructor
  · intro v hv hrule
    rw [hvs] at hv
    rcases List.mem_append.mp hv with hv' | hv'
    · rcases List.mem_append.mp hv' with hv'' | hv''
      · obtain ⟨l, hl, hvl⟩ := List.mem_flatten.mp hv''
        obtain ⟨e, he, hel⟩ := List.mem_map.mp hl
        obtain ⟨txn, htxn, hte⟩ := effList_mem_rev heff e he
        obtain ⟨a, bal, c, ha, hb, hco, hee⟩ := txnEffect_parts hte
        refine ⟨txn, htxn, a, ha, ?_⟩
        rw [hee] at hel
        rw [← hel] at hvl
        simp only [List.mem_append] at hvl
        rcases hvl with (hv1 | hv2) | hv3
        · exfalso
          unfold r1Violation at hv1
          by_cases hc : (10000000 < a && !strongAuth (authMethodOf
              (buildAuthMap d.authLogs) (txnCustomerOf am txn))) = true
          · rw [if_pos hc] at hv1
            have hveq := (by simpa using hv1 :
              v = ⟨"RULE_001", "HIGH", some (txn.pyGet "TransactionID"),
                some (txnCustomerOf am txn), none, none⟩)
            rw [hveq] at hrule
            simp at hrule
          · rw [if_neg hc] at hv1; simp at hv1
        · unfold r2Violation at hv2
          by_cases hc : (txnCustomerOf am txn).truthy
          · rw [if_pos hc] at hv2
            by_cases hc2 : (!(unverifiedDevices d.devices
                (txnCustomerOf am txn)).isEmpty && 1000000 < a) = true
            · rw [if_pos hc2] at hv2
              have hveq := (by simpa using hv2 :
                v = ⟨"RULE_002", "MEDIUM", some (txn.pyGet "TransactionID"),
                  some (txnCustomerOf am txn),
                  some (((unverifiedDevices d.devices
                    (txnCustomerOf am txn)).headD ⟨[]⟩).pyGet "DeviceID"), none⟩)
              simp only [Bool.and_eq_true, Bool.not_eq_true',
                decide_eq_true_eq] at hc2
              exact ⟨hc, hc2.1, hc2.2, by rw [hveq], by rw [hveq], by rw [hveq]⟩
            · rw [if_neg hc2] at hv2; simp at hv2
          · rw [if_neg hc] at hv2; simp at hv2
        · exfalso
          unfold r3Violation at hv3
          by_cases hc : bal < a
          · rw [if_pos hc] at hv3
            have hveq := (by simpa using hv3 :
              v = ⟨"RULE_003", "HIGH", some (txn.pyGet "TransactionID"),
                some (txnCustomerOf am txn), none, none⟩)
            rw [hveq] at hrule
            simp at hrule
          · rw [if_neg hc] at hv3; simp at hv3
      · exfalso
        have := r4Violations_rules v hv''
        rw [this] at hrule
        simp at hrule
    · exfalso
      have := r5Violations_rules v hv'
      rw [this] at hrule
      simp at hrule
  · intro txn htxn a ha hcid hunv h1m
    obtain ⟨e, he, hte⟩ := effList_mem heff txn htxn
    obtain ⟨a', bal, c, ha', hb, hco, hee⟩ := txnEffect_parts hte
    rw [ha] at ha'
    cases ha'
    refine ⟨⟨"RULE_002", "MEDIUM", some (txn.pyGet "TransactionID"),
        some (txnCustomerOf am txn),
        some (((unverifiedDevices d.devices
          (txnCustomerOf am txn)).headD ⟨[]⟩).pyGet "DeviceID"), none⟩,
      mem_vs_of_mem_eff he ?_ hvs, rfl, rfl, rfl⟩
    rw [hee]
    simp only [List.mem_append]
    left; right
    unfold r2Violation
    rw [if_pos hcid, if_pos (by
      simp only [Bool.and_eq_true, Bool.not_eq_true', decide_eq_true_eq]
      exact ⟨hunv, h1m⟩)]
    simp

/-! ## Claim C4 -/

/-- A transaction's crash behaviour and daily-total contribution do not
depend on the auth map; only the Rule 1 part of its violations does. -/
theorem txnEffect_swap_auth {dev : List Rec} {am : List (Value × Rec)}
    {auth1 : List (Value × Rec)} (auth2 : List (Value × Rec)) {txn : Rec}
    {e1 : List Violation × Option ((Value × String) × Int)}
    (h1 : txnEffect ⟨dev, am, auth1⟩ txn = some e1) :
    ∃ e2, txnEffect ⟨dev, am, auth2⟩ txn = some e2 ∧ e2.2 = e1.2 := by
  obtain ⟨a, bal, c, ha, hb, hco, hee⟩ := txnEffect_parts h1
  dsimp only at hb hco
  refine ⟨(r1Violation ⟨dev, am, auth2⟩ txn a ++ r2Violation ⟨dev, am, auth2⟩ txn a
    ++ r3Violation ⟨dev, am, auth2⟩ txn bal a, c), ?_, by rw [hee]⟩
  unfold txnEffect
  dsimp only
  rw [ha]
  simp only [Option.some_bind]
  rw [hb]
  simp only [Option.some_bind]
  rw [hco]
  rfl

theorem effList_swap_auth {dev : List Rec} {am : List (Value × Rec)}
    {auth1 : List (Value × Rec)} (auth2 : List (Value × Rec)) :
    ∀ {ts : List Rec}
      {effs1 : List (List Violation × Option ((Value × String) × Int))},
      effList ⟨dev, am, auth1⟩ ts = some effs1 →
      ∃ effs2, effList ⟨dev, am, auth2⟩ ts = some effs2 ∧
        effs2.map Prod.snd = effs1.map Prod.snd
  | [], effs1, h => by
    unfold effList at h ⊢
    cases h
    exact ⟨[], rfl, rfl⟩
  | t :: ts, effs1, h => by
    unfold effList at h ⊢
    cases he : txnEffect ⟨dev, am, auth1⟩ t with
    | none => rw [he] at h; simp at h
    | some e =>
      rw [he] at h
      cases hes : effList ⟨dev, am, auth1⟩ ts with
      | none => rw [hes] at h; simp at h
      | some es =>
        rw [hes] at h
        simp only [Option.some_bind, Option.map_some', Option.some.injEq] at h
        subst h
        obtain ⟨e2, he2, he2s⟩ := txnEffect_swap_auth auth2 he
        obtain ⟨es2, hes2, hes2s⟩ := effList_swap_auth auth2 hes
        refine ⟨e2 :: es2, ?_, ?_⟩
        · rw [he2, hes2]
          rfl
        · simp [he2s, hes2s]

theorem filter_r4_of_rules {vs : List Violation}
    (h : ∀ v ∈ vs, v.rule ≠ "RULE_004") :
    vs.filter (fun v => v.rule == "RULE_004") = [] := by
  refine List.filter_eq_nil_iff.mpr ?_
  intro v hv
  simpa using h v hv

theorem filter_r4_flatten {ctx : RCtx} {ts : List Rec}
    {effs : List (List Violation × Option ((Value × String) × Int))}
    (heff : effList ctx ts = some effs) :
    ((effs.map Prod.fst).flatten).filter (fun v => v.rule == "RULE_004") = [] := by
  refine filter_r4_of_rules ?_
  intro v hv
  obtain ⟨l, hl, hvl⟩ := List.mem_flatten.mp hv
  obtain ⟨e, he, hel⟩ := List.mem_map.mp hl
  obtain ⟨t, -, hte⟩ := effList_mem_rev heff e he
  rcases txnEffect_rules hte v (hel ▸ hvl) with h' | h' | h' <;> simp [h']

/-- C4 amended: Rule 4 alerts are completely independent of the
authentication-log batch.  Replacing the auth logs by anything (in
particular by logs full of strong-auth successes, or by none at all)
leaves the RULE_004 violations — customer, date and count — unchanged:
no strong-auth suppression exists. -/
theorem C4_no_strong_auth_suppression {d : RiskData} {vs : List Violation}
    (h : checkAllRisks d = some vs) (logs' : List Rec) :
    ∃ vs', checkAllRisks ⟨d.transactions, d.customers, d.devices,
        d.accounts, logs'⟩ = some vs' ∧
      vs'.filter (fun v => v.rule == "RULE_004") =
        vs.filter (fun v => v.rule == "RULE_004") := by
  obtain ⟨cm, dm, am, effs, hcm, hdm, ham, heff, hvs⟩ := checkAllRisks_char.mp h
  obtain ⟨effs2, heff2, hsnd⟩ := effList_swap_auth (buildAuthMap logs') heff
  have hdaily : effs2.foldl (fun m e => applyContrib m e.2) [] =
      effs.foldl (fun m e => applyContrib m e.2) [] := by
    have h1 : effs.foldl (fun m e => applyContrib m e.2) [] =
        (effs.map Prod.snd).foldl applyContrib [] := by
      rw [List.foldl_map]
    have h2 : effs2.foldl (fun m e => applyContrib m e.2) [] =
        (effs2.map Prod.snd).foldl applyContrib [] := by
      rw [List.foldl_map]
    rw [h1, h2, hsnd]
  refine ⟨((effs2.map Prod.fst).flatten
      ++ r4Violations (effs2.foldl (fun m e => applyContrib m e.2) [])
      ++ r5Violations (buildFailedAuths logs')),
    checkAllRisks_char.mpr ⟨cm, dm, am, effs2, hcm, hdm, ham, heff2, rfl⟩, ?_⟩
  have hr5 : ∀ ls : List Rec,
      (r5Violations (buildFailedAuths ls)).filter
        (fun v => v.rule == "RULE_004") = [] :=
    fun ls => filter_r4_of_rules (fun v hv => by
      rw [r5Violations_rules v hv]; simp)
  have hr4 : ∀ dly : List ((Value × String) × Int),
      (r4Violations dly).filter (fun v => v.rule == "RULE_004") =
        r4Violations dly :=
    fun dly => List.filter_eq_self.mpr (fun v hv => by
      rw [r4Violations_rules v hv]; simp)
  rw [hvs]
  rw [List.filter_append, List.filter_append, List.filter_append,
    List.filter_append]
  rw [filter_r4_flatten heff2, filter_r4_flatten heff]
  rw [hr5 logs', hr5 d.authLogs, hr4, hr4, hdaily]

/-! ## Risk-side concrete batches, counterexamples and witnesses -/

def rCust : Rec := ⟨[("CustomerID", .int 1), ("Name", .str "A")]⟩

def rDevVerified : Rec := ⟨[("DeviceID", .int 1), ("CustomerID", .int 1),
  ("IsVerified", .bool true)]⟩

def rAcct : Rec := ⟨[("AccountID", .int 1), ("CustomerID", .int 1),
  ("Balance", .int 100000000)]⟩

def exC4auth : Rec := ⟨[("AuthID", .int 1), ("CustomerID", .int 1),
  ("DeviceID", .int 1), ("AuthMethod", .str "Biometric"),
  ("AuthStatus", .str "SUCCESS"), ("Timestamp", .str "2024-01-01T09:00:00")]⟩

def exC4txn (k : Int) (hh : String) : Rec :=
  ⟨[("TransactionID", .int k), ("FromAccountID", .int 1),
    ("ToAccountID", .int 2), ("DeviceID", .int 1), ("Amount", .int 9000000),
    ("Timestamp", .str ("2024-01-01T" ++ hh ++ ":00:00"))]⟩

/-- Six same-day 9M VND transactions (total 54M) by a customer with a
same-day biometric success. -/
def exC4data : RiskData :=
  ⟨[exC4txn 1 "10", exC4txn 2 "11", exC4txn 3 "12",
    exC4txn 4 "13", exC4txn 5 "14", exC4txn 6 "15"],
   [rCust], [rDevVerified], [rAcct], [exC4auth]⟩

/-- C4 counterexample: the claim says a same-day strong-auth success
(here a biometric SUCCESS at 09:00 on 2024-01-01) suppresses the daily
limit alert; in fact the run still emits the RULE_004 alert for that
customer and day. -/
theorem C4_counterexample :
    exC4auth.pyGet "AuthMethod" = .str "Biometric" ∧
    exC4auth.pyGet "AuthStatus" = .str "SUCCESS" ∧
    exC4auth.pyGet "Timestamp" = .str "2024-01-01T09:00:00" ∧
    checkAllRisks exC4data =
      some [⟨"RULE_004", "HIGH", none, some (.int 1), none,
        some "2024-01-01"⟩] := by
  decide

theorem C4_witness :
    checkAllRisks exC4data =
      some [⟨"RULE_004", "HIGH", none, some (.int 1), none,
        some "2024-01-01"⟩] ∧
    ∃ vs', checkAllRisks ⟨exC4data.transactions, exC4data.customers,
        exC4data.devices, exC4data.accounts, []⟩ = some vs' ∧
      vs'.filter (fun v => v.rule == "RULE_004") =
        [⟨"RULE_004", "HIGH", none, some (.int 1), none,
          some "2024-01-01"⟩].filter (fun v => v.rule == "RULE_004") :=
  ⟨by decide, C4_no_strong_auth_suppression (by decide) []⟩

def rDev2Verified : Rec := ⟨[("DeviceID", .int 2), ("CustomerID", .int 1),
  ("IsVerified", .bool true)]⟩

def exC5auth1 : Rec := ⟨[("AuthID", .int 1), ("CustomerID", .int 1),
  ("DeviceID", .int 1), ("AuthMethod", .str "Password"),
  ("AuthStatus", .str "SUCCESS"), ("Timestamp", .str "2024-01-01T08:00:00")]⟩

def exC5auth2 : Rec := ⟨[("AuthID", .int 2), ("CustomerID", .int 1),
  ("DeviceID", .int 2), ("AuthMethod", .str "Biometric"),
  ("AuthStatus", .str "SUCCESS"), ("Timestamp", .str "2024-01-01T09:00:00")]⟩

def exC5txn : Rec := ⟨[("TransactionID", .int 1), ("FromAccountID", .int 1),
  ("ToAccountID", .int 2), ("DeviceID", .int 1), ("Amount", .int 20000000),
  ("Timestamp", .str "2024-01-01T10:00:00")]⟩

def exC5data : RiskData :=
  ⟨[exC5txn], [rCust], [rDevVerified, rDev2Verified], [rAcct],
   [exC5auth1, exC5auth2]⟩

def exC5am : List (Value × Rec) := [(.int 1, rAcct)]

/-- Modelled from the spec's words, for comparison with the code: the
successful authentication logs of a given customer/device *pair*. -/
def specPairSuccesses (logs : List Rec) (cid did : Value) : List Rec :=
  logs.filter (fun a => (a.pyGet "CustomerID" == cid)
    && (a.pyGet "DeviceID" == did) && (a.pyGet "AuthStatus" == .str "SUCCESS"))

/-- C5 counterexample: a 20M VND transaction from device 1 of customer 1;
the only successful authentication on that pair is `Password` (not
strong), so the claim demands a HIGH RULE_001 alert — but the run emits
nothing, because the code keys the lookup by customer only and a later
biometric success on *another* device masks it. -/
theorem C5_counterexample :
    (exC5txn.pyGetD "Amount" (.int 0)).toNum = some 20000000 ∧
    (10000000 : Int) < 20000000 ∧
    exC5txn.pyGet "DeviceID" = .int 1 ∧
    buildMap "AccountID" exC5data.accounts = some exC5am ∧
    txnCustomerOf exC5am exC5txn = .int 1 ∧
    specPairSuccesses exC5data.authLogs (.int 1) (.int 1) = [exC5auth1] ∧
    exC5auth1.pyGet "AuthMethod" = .str "Password" ∧
    strongAuth (.str "Password") = false ∧
    checkAllRisks exC5data = some [] := by
  decide

theorem C5_witness :
    checkAllRisks exC5data = some [] ∧
    buildMap "AccountID" exC5data.accounts = some exC5am ∧
    r1Characterized exC5data exC5am [] :=
  ⟨by decide, by decide, C5_amended (by decide) (by decide)⟩

def rDevUnverified : Rec := ⟨[("DeviceID", .int 1), ("CustomerID", .int 1),
  ("IsVerified", .bool false)]⟩

def exC6acct : Rec := ⟨[("AccountID", .int 1), ("CustomerID", .int 1),
  ("Balance", .int 10000000)]⟩

def exC6txn : Rec := ⟨[("TransactionID", .int 1), ("FromAccountID", .int 1),
  ("ToAccountID", .int 2), ("DeviceID", .int 1), ("Amount", .int 500000),
  ("Timestamp", .str "2024-01-01T10:00:00")]⟩

def exC6data : RiskData :=
  ⟨[exC6txn], [rCust], [rDevUnverified], [exC6acct], []⟩

def exC6am : List (Value × Rec) := [(.int 1, exC6acct)]

/-- C6 counterexample: the transaction's own device (DeviceID 1) is not
verified, so the claim demands a MEDIUM RULE_002 alert with no condition
on the amount — but with an amount of 500,000 VND (≤ 1M) the run emits
nothing at all. -/
theorem C6_counterexample :
    exC6txn.pyGet "DeviceID" = .int 1 ∧
    exC6data.devices.filter (fun d => d.pyGet "DeviceID" == .int 1) =
      [rDevUnverified] ∧
    (rDevUnverified.pyGetD "IsVerified" (.bool false)).truthy = false ∧
    (exC6txn.pyGetD "Amount" (.int 0)).toNum = some 500000 ∧
    checkAllRisks exC6data = some [] := by
  decide

theorem C6_witness :
    checkAllRisks exC6data = some [] ∧
    buildMap "AccountID" exC6data.accounts = some exC6am ∧
    r2Characterized exC6data exC6am [] :=
  ⟨by decide, by decide, C6_amended (by decide) (by decide)⟩

def exC10txn : Rec := ⟨[("TransactionID", .int 1), ("FromAccountID", .int 99),
  ("ToAccountID", .int 2), ("DeviceID", .int 1), ("Amount", .int 20000000),
  ("Timestamp", .str "2024-01-01T10:00:00")]⟩

def exC10data : RiskData :=
  ⟨[exC10txn], [rCust], [rDevVerified], [rAcct], []⟩

def exC10am : List (Value × Rec) := [(.int 1, rAcct)]

def exC10vs : List Violation :=
  [⟨"RULE_001", "HIGH", some (.int 1), some .null, none, none⟩,
   ⟨"RULE_003", "HIGH", some (.int 1), some .null, none, none⟩]

theorem C10_witness :
    checkAllRisks exC10data = some exC10vs ∧
    ((0 : Int) < 20000000 → ∃ v ∈ exC10vs, v.rule = "RULE_003" ∧
      v.txn = some (exC10txn.pyGet "TransactionID") ∧ v.cust = some .null) ∧
    ((10000000 : Int) < 20000000 → ∃ v ∈ exC10vs, v.rule = "RULE_001" ∧
      v.txn = some (exC10txn.pyGet "TransactionID") ∧ v.cust = some .null) ∧
    r2Violation ⟨exC10data.devices, exC10am,
      buildAuthMap exC10data.authLogs⟩ exC10txn 20000000 = [] ∧
    contribOf exC10txn (txnCustomerOf exC10am exC10txn) 20000000 = some none := by
  refine ⟨by decide, ?_⟩
  exact C10_degraded (by decide) (by decide) (by decide) (by decide) (by decide)

end BankPipeline
